import Mathlib

/-!
CoreGuard-NMR: the scheduler engine (`src/lib/src/scheduler.cpp`).

A shallow embedding of the scheduler class: the core table, the task table, the
core selector `find_core`, the launcher `run_tasks`, the monitor `monitor_tasks`,
the sampler `log_results` and the exporter `write_results_to_csv`.

Modelling conventions.

* The C arrays `m_cores[NUM_OF_CORES]`, `m_tasks[NUM_OF_TASKS]` and
  `m_results[NUM_OF_SAMPLES]` are total maps from indices to cells; the sizes are
  fields of `Config`, so that "the index is in range" is something one proves.
* `defines.h` is not part of the sources at hand: every constant it provides
  (`NUM_OF_CORES`, `MAX_CORE_WEIGHT`, ...) and the two conditional-compilation
  switches (`RELIABILITY_SCHEDULING`, `NMR`) are fields of `Config`.
* The `int` counters that are incremented without a guard (success, fails,
  runs) wrap at 32 bits (`wrap32`); clock values and the guarded sample cursor
  are integers; the `float` weight is an exact rational number (only `+`, `-`,
  `>` and `==` are used on it).
* What the operating system answers (`fork`, `waitpid`, the clock, `fopen`,
  `sched_setaffinity`) and what the pipes answer (`task_input_full`) are
  arguments of the operation that asks.
* An operation that ends the process (`exit`) returns `none`.
-/

namespace CoreGuard

/-- Compile-time configuration: the constants of `defines.h` and the two
`#ifdef` switches read by `scheduler.cpp`, plus the two fixed steps of the core
class (`increase_weight`, `decrease_weight`). -/
structure Config where
  NUM_OF_CORES : Nat
  NUM_OF_TASKS : Nat
  NUM_OF_SAMPLES : Nat
  MAX_CORE_WEIGHT : ℚ
  MAX_LOG_INTERVAL : Int
  RELIABILITY_SCHEDULING : Bool
  NMR : Bool
  weight_increment : ℚ
  weight_decrement : ℚ

/-- One entry of `m_cores`: the fields behind `get_coreID`, `get_weight`,
`get_active`, `get_runs`. -/
structure Core where
  coreID : Nat
  weight : ℚ
  active : Bool
  runs : Int

/-- One entry of `m_tasks`: the fields behind the task getters and setters used by
the scheduler. `m_function` stands for the entry-point pointer and `inputs` for
the input pointer (`none` is `NULL`). -/
structure Task where
  name : String
  voter : Bool
  m_function : Nat
  inputs : Option Nat
  fails : Int
  success : Int
  active : Bool
  replicate : Bool
  finished : Bool
  fireable : Bool
  cpu_id : Nat
  pid : Int

/-- One entry of `m_results`: a snapshot of every core's runs and weight. -/
structure SampleRecord where
  m_cores : Nat → Int
  m_weights : Nat → ℚ

/-- The data members of class `scheduler`. -/
structure scheduler where
  m_cores : Nat → Core
  m_tasks : Nat → Task
  m_results : Int → SampleRecord
  m_counter : Int
  m_log_timeout : Int
  m_activationTime : Int
  m_voter : Nat

/-- Array store `a[i] = v`. -/
def setAt {ι α : Type} [DecidableEq ι] (a : ι → α) (i : ι) (v : α) : ι → α :=
  fun j => if j = i then v else a j

/-- The loop `for (int i = lo; i < lo + n; i++) s = body(i, s)`, first argument
after the body the number `n` of iterations, second the start `lo`. -/
def forLoop {σ : Type} (body : Nat → σ → σ) : Nat → Nat → σ → σ
  | 0, _, s => s
  | n + 1, i, s => forLoop body n (i + 1) (body i s)

/-- The value an `int` variable holds after the result `x` is stored in it: 32-bit
two's complement, so `INT_MAX + 1` is `INT_MIN`. -/
def wrap32 (x : Int) : Int :=
  (x + 2147483648) % 4294967296 - 2147483648

/-- Modelled from the spec: `core::increase_weight` (the core class is not among
the sources): the weight is "increased by a fixed step". -/
def Core.increase_weight (cfg : Config) (c : Core) : Core :=
  { c with weight := c.weight + cfg.weight_increment }

/-- Modelled from the spec: `core::decrease_weight` (the core class is not among
the sources): the weight is "decreased by a fixed step", with no floor. -/
def Core.decrease_weight (cfg : Config) (c : Core) : Core :=
  { c with weight := c.weight - cfg.weight_decrement }

/-- Modelled from the spec: `core::increase_runs` (the core class is not among
the sources): "increment the core's run counter", an `int` (printed with `%d`
at line 283). -/
def Core.increase_runs (c : Core) : Core :=
  { c with runs := wrap32 (c.runs + 1) }

/-- Modelled from the spec: `task::increment_fails` (the task class is not among
the sources): "increment fail count", an `int` (printed with `%d` at line
278). -/
def Task.increment_fails (t : Task) : Task :=
  { t with fails := wrap32 (t.fails + 1) }

namespace scheduler

/-- Apply `f` to `m_cores[c]`. -/
def modCore (s : scheduler) (c : Nat) (f : Core → Core) : scheduler :=
  { s with m_cores := setAt s.m_cores c (f (s.m_cores c)) }

/-- Apply `f` to `m_tasks[i]`. -/
def modTask (s : scheduler) (i : Nat) (f : Task → Task) : scheduler :=
  { s with m_tasks := setAt s.m_tasks i (f (s.m_tasks i)) }

/-- The body of the loop of `init_scheduler` (lines 26-32). -/
def init_core (cfg : Config) (i : Nat) (cores : Nat → Core) : Nat → Core :=
  setAt cores i { coreID := i, weight := cfg.MAX_CORE_WEIGHT, active := false, runs := 0 }

/-- `scheduler::init_scheduler` (lines 23-51). `now1` and `now2` are the two
answers of `time(NULL)`, `affinityOk` whether `sched_setaffinity` returned 0;
when it did not, the process exits. -/
def init_scheduler (cfg : Config) (now1 now2 : Int) (affinityOk : Bool)
    (s : scheduler) : Option scheduler :=
  let s1 : scheduler :=
    { s with m_cores := forLoop (init_core cfg) cfg.NUM_OF_CORES 0 s.m_cores }
  let s2 : scheduler :=
    { s1 with m_activationTime := now1, m_log_timeout := now2, m_counter := 0 }
  if affinityOk = true then some s2 else none

/-- The body of the loop of `find_core` (lines 231-246): the candidate after
looking at core `i` when it was `core_id` before. -/
def find_core_step (cfg : Config) (cores : Nat → Core) (i core_id : Nat) : Nat :=
  if cfg.RELIABILITY_SCHEDULING = true then
    if (cores i).active = false ∧ (cores i).weight > (cores core_id).weight then i
    else if (cores i).active = false ∧ (cores i).weight = (cores core_id).weight then
      if (cores i).runs < (cores core_id).runs then i else core_id
    else core_id
  else
    if (cores i).active = false ∧ (cores i).runs < (cores core_id).runs then i
    else core_id

/-- The core id computed by the loop of `find_core` (lines 227-248). -/
def find_core_id (cfg : Config) (cores : Nat → Core) : Nat :=
  forLoop (find_core_step cfg cores) (cfg.NUM_OF_CORES - 1) 1 1

/-- `scheduler::find_core` (lines 224-254): the returned core id and the state
with that core marked active. -/
def find_core (cfg : Config) (s : scheduler) : Nat × scheduler :=
  let core_id := find_core_id cfg s.m_cores
  (core_id, s.modCore core_id (fun c => { c with active := true }))

/-- The loop of `run_tasks` (lines 60-98) from slot `i` with `n` slots left
(`i + n = NUM_OF_TASKS`). `fork i` is what `fork()` returns in the iteration for
slot `i`: `-1` ends the process with `EXIT_FAILURE`; `0` means this process is the
child, which runs the task body and exits. -/
def run_tasks_loop (cfg : Config) (fork : Nat → Int) : Nat → Nat → scheduler → Option scheduler
  | 0, _, s => some s
  | n + 1, i, s =>
    if (s.m_tasks i).fireable = true then
      let r := find_core cfg s
      let s1 := r.2.modTask i (fun t => { t with cpu_id := r.1 })
      let pid := fork i
      if pid = -1 then none
      else if pid = 0 then none
      else
        let s2 := s1.modTask i (fun t => { t with pid := pid })
        let s3 := s2.modTask i (fun t => { t with active := true })
        let s4 := s3.modCore (s3.m_tasks i).cpu_id (fun c => { c with active := true })
        run_tasks_loop cfg fork n (i + 1) s4
    else some s

/-- `scheduler::run_tasks` (lines 53-102). -/
def run_tasks (cfg : Config) (fork : Nat → Int) (s : scheduler) : Option scheduler :=
  run_tasks_loop cfg fork cfg.NUM_OF_TASKS 0 s

end scheduler

/-- What `waitpid(pid, &status, WNOHANG)` hands back: its return value and the
status word (whatever `status` holds afterwards). -/
structure WaitResult where
  result : Int
  status : Int

/-- `WIFEXITED(status)` of `<sys/wait.h>`: `(status & 0x7f) == 0`. -/
def WIFEXITED (status : Int) : Bool := decide (status % 128 = 0)

/-- `WEXITSTATUS(status)` of `<sys/wait.h>`: `(status & 0xff00) >> 8`. -/
def WEXITSTATUS (status : Int) : Int := (status / 256) % 256

/-- `WIFSIGNALED(status)` of `<sys/wait.h>`:
`((signed char) ((status & 0x7f) + 1) >> 1) > 0`, that is a termination signal
between 1 and 126. -/
def WIFSIGNALED (status : Int) : Bool :=
  decide (1 ≤ status % 128 ∧ status % 128 ≤ 126)

namespace scheduler

/-- Lines 136-142: the success branch. `get_success() + 1` is stored in an `int`
(printed with `%d` at line 278). The cap writes the literal `100`. -/
def on_success (cfg : Config) (i : Nat) (s : scheduler) : scheduler :=
  let s1 := s.modTask i (fun t => { t with success := wrap32 (t.success + 1) })
  let s2 := s1.modCore (s1.m_tasks i).cpu_id (Core.increase_weight cfg)
  if (s2.m_cores (s2.m_tasks i).cpu_id).weight > cfg.MAX_CORE_WEIGHT then
    s2.modCore (s2.m_tasks i).cpu_id (fun c => { c with weight := 100 })
  else s2

/-- Lines 146-147: the branch for a non-zero exit code. -/
def on_exit_failure (cfg : Config) (i : Nat) (s : scheduler) : scheduler :=
  let s1 := s.modTask i Task.increment_fails
  s1.modCore (s1.m_tasks i).cpu_id (Core.decrease_weight cfg)

/-- Lines 153-154: the branch for a termination by signal. -/
def on_signal (cfg : Config) (i : Nat) (s : scheduler) : scheduler :=
  let s1 := s.modCore (s.m_tasks i).cpu_id (Core.decrease_weight cfg)
  s1.modTask i Task.increment_fails

/-- Lines 132-155: the classification of the status word. -/
def classify (cfg : Config) (status : Int) (i : Nat) (s : scheduler) : scheduler :=
  if WIFEXITED status = true then
    if WEXITSTATUS status = 0 then on_success cfg i s else on_exit_failure cfg i s
  else if WIFSIGNALED status = true then on_signal cfg i s
  else s

/-- Lines 157-165: the update of task and core state after a reap. -/
def release (i : Nat) (s : scheduler) : scheduler :=
  let s1 := s.modTask i (fun t => { t with active := false })
  let s2 := s1.modCore (s1.m_tasks i).cpu_id Core.increase_runs
  let s3 := s2.modCore (s2.m_tasks i).cpu_id (fun c => { c with active := false })
  if (s3.m_tasks i).replicate = true then
    s3.modTask i (fun t => { t with finished := true })
  else s3

/-- The body of the first loop of `monitor_tasks` (lines 110-167) for slot `i`.
`inputFull i` is the answer of `task_input_full(&m_tasks[i])`, `wait i` the
answer of `waitpid` for that slot. -/
def monitor_task (cfg : Config) (inputFull : Nat → Bool) (wait : Nat → WaitResult)
    (i : Nat) (s : scheduler) : scheduler :=
  let s1 :=
    if inputFull i = true ∧ (s.m_tasks i).active = false then
      s.modTask i (fun t => { t with fireable := true })
    else
      s.modTask i (fun t => { t with fireable := false })
  if (s1.m_tasks i).fireable = false ∧ (s1.m_tasks i).active = true then
    if (wait i).result = 0 then s1
    else release i (classify cfg (wait i).status i s1)
  else s1

/-- The loop of lines 171-176: one more for every slot that is a finished
replicate. -/
def count_finished (s : scheduler) (i : Nat) (counter : Int) : Int :=
  if (s.m_tasks i).replicate = true ∧ (s.m_tasks i).finished = true then counter + 1
  else counter

/-- Lines 169-184, compiled under `NMR`. -/
def nmr_vote (cfg : Config) (s : scheduler) : scheduler :=
  let counter := forLoop (count_finished s) cfg.NUM_OF_TASKS 0 0
  if counter = 3 then s.modTask s.m_voter (fun t => { t with fireable := true })
  else s.modTask s.m_voter (fun t => { t with fireable := false })

/-- `scheduler::monitor_tasks` (lines 104-185). -/
def monitor_tasks (cfg : Config) (inputFull : Nat → Bool) (wait : Nat → WaitResult)
    (s : scheduler) : scheduler :=
  let s1 := forLoop (monitor_task cfg inputFull wait) cfg.NUM_OF_TASKS 0 s
  if cfg.NMR = true then nmr_vote cfg s1 else s1

/-- `scheduler::add_task` (lines 187-207); `function` stands for the entry-point
pointer. -/
def add_task (id : Nat) (name : String) (period : Int) (function : Nat)
    (s : scheduler) : scheduler :=
  s.modTask id (fun t =>
    { t with
      name := name
      voter := false
      m_function := function
      inputs := none
      fails := 0
      success := 0
      active := false
      replicate := false
      finished := false
      fireable := decide (period ≠ 0) })

/-- The body of the loop of `log_results` (lines 291-294). -/
def log_core (s : scheduler) (i : Nat) (r : SampleRecord) : SampleRecord :=
  { m_cores := setAt r.m_cores i (s.m_cores i).runs
    m_weights := setAt r.m_weights i (s.m_cores i).weight }

/-- `scheduler::log_results` (lines 287-302); `currentTimeMs` is the answer of
`current_time_in_ms()`. The `else if` branch only prints. -/
def log_results (cfg : Config) (currentTimeMs : Int) (s : scheduler) : scheduler :=
  if currentTimeMs - s.m_log_timeout > cfg.MAX_LOG_INTERVAL ∧
      s.m_counter < cfg.NUM_OF_SAMPLES then
    { s with
      m_results := setAt s.m_results s.m_counter
        (forLoop (log_core s) cfg.NUM_OF_CORES 0 (s.m_results s.m_counter))
      m_log_timeout := currentTimeMs
      m_counter := s.m_counter + 1 }
  else s

end scheduler

/-- One field written to the report: `core_%d`, `weight_%d`, a run count (`%d`)
or a weight (`%.2f`). Fields of a row are separated by tabs, a row ends with a
newline. -/
inductive Cell where
  | core_label (i : Nat)
  | weight_label (i : Nat)
  | runs (n : Int)
  | weight (w : ℚ)

namespace scheduler

/-- Lines 312-321: the header row. -/
def csv_header (cfg : Config) : List Cell :=
  forLoop (fun i row => row ++ [Cell.weight_label i]) (cfg.NUM_OF_CORES - 1) 1
    (forLoop (fun i row => row ++ [Cell.core_label i]) (cfg.NUM_OF_CORES - 1) 1 [])

/-- Lines 325-334: the data row for sample `i`. -/
def csv_row (cfg : Config) (s : scheduler) (i : Nat) : List Cell :=
  forLoop (fun j row => row ++ [Cell.weight ((s.m_results i).m_weights j)])
    (cfg.NUM_OF_CORES - 1) 1
    (forLoop (fun j row => row ++ [Cell.runs ((s.m_results i).m_cores j)])
      (cfg.NUM_OF_CORES - 1) 1 [])

/-- Lines 324-335: the data rows, `for (int i = 1; i < m_counter; i++)`. -/
def csv_data (cfg : Config) (s : scheduler) : List (List Cell) :=
  forLoop (fun i rows => rows ++ [csv_row cfg s i]) (s.m_counter - 1).toNat 1 []

/-- `scheduler::write_results_to_csv` (lines 304-338): the rows written to
`output.txt`, header first; `none` when `fopen` fails and nothing is written. -/
def write_results_to_csv (cfg : Config) (fileOpens : Bool) (s : scheduler) :
    Option (List (List Cell)) :=
  if fileOpens = true then some (csv_header cfg :: csv_data cfg s) else none

end scheduler

/-! ## Runs of the driver, and the ghost count of reaps -/

/-- One call made by the driver loop, with the answers of the operating system
and of the pipes during that call. -/
inductive Call where
  | run_tasks (fork : Nat → Int)
  | monitor_tasks (inputFull : Nat → Bool) (wait : Nat → WaitResult)

/-- The status word reports a termination the monitor classifies: a normal exit
or a kill by a signal. -/
def WaitResult.terminated (w : WaitResult) : Bool :=
  WIFEXITED w.status || WIFSIGNALED w.status

/-- The status word reports a normal exit with exit status 0. -/
def WaitResult.exit_ok (w : WaitResult) : Bool :=
  WIFEXITED w.status && decide (WEXITSTATUS w.status = 0)

/-- The status word reports a normal exit with another exit status, or a kill by
a signal. -/
def WaitResult.failed (w : WaitResult) : Bool :=
  (WIFEXITED w.status && decide (WEXITSTATUS w.status ≠ 0)) ||
    (!WIFEXITED w.status && WIFSIGNALED w.status)

/-- An outcome of `waitpid(pid, &status, WNOHANG)` on a child of the scheduler:
0 while the child runs, and otherwise a status word that reports a normal exit or
a kill by a signal. -/
def WaitResult.valid (w : WaitResult) : Bool :=
  decide (w.result = 0) || w.terminated

/-- The call hands slot `id` an outcome of `waitpid` in the sense of
`WaitResult.valid`. -/
def Call.valid_for (id : Nat) : Call → Bool
  | Call.run_tasks _ => true
  | Call.monitor_tasks _ wait => (wait id).valid

namespace scheduler

/-- The state after one call; `none` when the process exits in it. -/
def call (cfg : Config) : Call → scheduler → Option scheduler
  | Call.run_tasks fork, s => run_tasks cfg fork s
  | Call.monitor_tasks inputFull wait, s => some (monitor_tasks cfg inputFull wait s)

/-- The state after a sequence of calls; `none` when the process exits on the
way. -/
def calls (cfg : Config) : List Call → scheduler → Option scheduler
  | [], s => some s
  | c :: cs, s =>
    match call cfg c s with
    | some s1 => calls cfg cs s1
    | none => none

/-- A `monitor_tasks` call made in state `s` reaps slot `id`: the slot is within
the loop bound, the task is active, and `waitpid` answers something other than
0, so that lines 157-160 mark the task inactive. -/
def reaps (cfg : Config) (wait : Nat → WaitResult) (id : Nat) (s : scheduler) : Bool :=
  decide (id < cfg.NUM_OF_TASKS ∧ (s.m_tasks id).active = true ∧ (wait id).result ≠ 0)

/-- How many times the calls `cs`, made from state `s`, reap slot `id` with a wait
result accepted by `p`. -/
def reap_count (cfg : Config) (p : WaitResult → Bool) (id : Nat) :
    List Call → scheduler → Nat
  | [], _ => 0
  | c :: cs, s =>
    (match c with
      | Call.monitor_tasks _ wait => if reaps cfg wait id s && p (wait id) then 1 else 0
      | Call.run_tasks _ => 0) +
    (match call cfg c s with
      | some s1 => reap_count cfg p id cs s1
      | none => 0)

/-- A run of `log_results` calls, one for each clock value of the list. -/
def log_trace (cfg : Config) : List Int → scheduler → scheduler
  | [], s => s
  | t :: clock, s => log_trace cfg clock (log_results cfg t s)

end scheduler

/-! ## Concrete configurations and states used by the examples -/

/-- A task slot as zero-initialised storage holds it. -/
def blankTask : Task :=
  { name := "", voter := false, m_function := 0, inputs := none, fails := 0, success := 0,
    active := false, replicate := false, finished := false, fireable := false, cpu_id := 0,
    pid := 0 }

/-- A scheduler object in zero-initialised storage, before `init_scheduler`. -/
def blank : scheduler :=
  { m_cores := fun _ => { coreID := 0, weight := 0, active := false, runs := 0 }
    m_tasks := fun _ => blankTask
    m_results := fun _ => { m_cores := fun _ => 0, m_weights := fun _ => 0 }
    m_counter := 0
    m_log_timeout := 0
    m_activationTime := 0
    m_voter := 0 }

/-- Example configuration: four cores (three placement cores), two tasks, room
for three samples, maximum weight 100, reliability-weighted selection. -/
def cfg4 : Config :=
  { NUM_OF_CORES := 4, NUM_OF_TASKS := 2, NUM_OF_SAMPLES := 3, MAX_CORE_WEIGHT := 100,
    MAX_LOG_INTERVAL := 10, RELIABILITY_SCHEDULING := true, NMR := false,
    weight_increment := 1, weight_decrement := 1 }

/-- As `cfg4`, built without `RELIABILITY_SCHEDULING`: selection by runs only. -/
def cfg4ByRuns : Config :=
  { cfg4 with RELIABILITY_SCHEDULING := false }

/-- The state `init_scheduler` builds from zero-initialised storage at clock 0. -/
def booted (cfg : Config) : scheduler :=
  (scheduler.init_scheduler cfg 0 0 true blank).getD blank

/-- `fork` succeeds every time: the child of slot `i` gets pid `1000 + i`. -/
def forks : Nat → Int := fun i => 1000 + i

/-- No task has its input ready. -/
def noInput : Nat → Bool := fun _ => false

/-- `waitpid` reports a normal exit with status 0 for every slot. -/
def exit0 : Nat → WaitResult := fun i => { result := 1000 + i, status := 0 }

/-- `waitpid` reports a normal exit with exit status 1 for every slot. -/
def exit1 : Nat → WaitResult := fun i => { result := 1000 + i, status := 256 }

/-- `waitpid` reports an exit with status 0 for slot 0 and answers 0 (still
running) for the other slots. -/
def firstExits : Nat → WaitResult :=
  fun i => if i = 0 then { result := 1000, status := 0 } else { result := 0, status := 0 }

/-- Two tasks registered with `period = 1` right after `init_scheduler`, in the
configuration `cfg4`: both fireable, cores 1, 2, 3 idle with weight 100 and no
runs. -/
def twoFireable : scheduler :=
  scheduler.add_task 1 "B" 1 2 (scheduler.add_task 0 "A" 1 1 (booted cfg4))

/-- One task registered with `period = 1` right after `init_scheduler`. -/
def oneFireable (cfg : Config) : scheduler :=
  scheduler.add_task 0 "A" 1 1 (booted cfg)

/-- As `cfg4`, with one task and a maximum weight of 50. -/
def cfg50 : Config :=
  { NUM_OF_CORES := 4, NUM_OF_TASKS := 1, NUM_OF_SAMPLES := 3, MAX_CORE_WEIGHT := 50,
    MAX_LOG_INTERVAL := 10, RELIABILITY_SCHEDULING := true, NMR := false,
    weight_increment := 1, weight_decrement := 1 }

/-- As `cfg4`, with one task and a maximum weight of 200. -/
def cfg200 : Config :=
  { NUM_OF_CORES := 4, NUM_OF_TASKS := 1, NUM_OF_SAMPLES := 3, MAX_CORE_WEIGHT := 200,
    MAX_LOG_INTERVAL := 10, RELIABILITY_SCHEDULING := true, NMR := false,
    weight_increment := 1, weight_decrement := 1 }

/-- A core table for `cfg4`: core 1 idle with weight 90 and 5 runs, core 2 idle
with weight 100 and 3 runs, core 3 idle with weight 100 and 2 runs. -/
def unevenCores : scheduler :=
  { blank with
    m_cores := fun i =>
      if i = 1 then { coreID := 1, weight := 90, active := false, runs := 5 }
      else if i = 2 then { coreID := 2, weight := 100, active := false, runs := 3 }
      else if i = 3 then { coreID := 3, weight := 100, active := false, runs := 2 }
      else { coreID := i, weight := 100, active := false, runs := 0 } }

/-- Every task has its input ready. -/
def allInput : Nat → Bool := fun _ => true

/-- As many rounds of the driver loop as the argument says, each one a launch, a
`monitor_tasks` call that reaps with exit status 0, and a `monitor_tasks` call
that finds the input ready again. -/
def exit0_rounds : Nat → List Call
  | 0 => []
  | n + 1 =>
    Call.run_tasks forks :: Call.monitor_tasks allInput exit0 ::
      Call.monitor_tasks allInput exit0 :: exit0_rounds n

/-- Three rounds of the driver loop, the last one cut after its launch: reap with
exit status 0, reap with exit status 1, launch again. -/
def twoRoundsAndLaunch : List Call :=
  [Call.run_tasks forks, Call.monitor_tasks noInput exit0, Call.monitor_tasks allInput exit0,
    Call.run_tasks forks, Call.monitor_tasks noInput exit1, Call.monitor_tasks allInput exit1,
    Call.run_tasks forks]

/-- The state after `twoRoundsAndLaunch`, started from slot 0 registered by
`add_task` on `booted cfg50`: task 0 is running for the third time. -/
def thirdLaunch : scheduler :=
  (scheduler.calls cfg50 twoRoundsAndLaunch (oneFireable cfg50)).getD blank

open scheduler

/-! ### Arrays and loops -/

@[simp] theorem setAt_same {ι α : Type} [DecidableEq ι] (a : ι → α) (i : ι) (v : α) :
    setAt a i v i = v := by
  simp [setAt]

@[simp] theorem setAt_other {ι α : Type} [DecidableEq ι] (a : ι → α) {i j : ι} (v : α)
    (h : j ≠ i) : setAt a i v j = a j := by
  simp [setAt, h]

theorem setAt_apply {ι α : Type} [DecidableEq ι] (a : ι → α) (i j : ι) (v : α) :
    setAt a i v j = if j = i then v else a j := rfl

/-- Invariant rule for `forLoop`: a property that holds on entry and is carried
over by every iteration holds on exit. -/
theorem forLoop_invariant {σ : Type} (body : Nat → σ → σ) (P : Nat → σ → Prop) :
    ∀ (n lo : Nat) (s : σ), P lo s →
      (∀ i t, lo ≤ i → i < lo + n → P i t → P (i + 1) (body i t)) →
      P (lo + n) (forLoop body n lo s) := by
  intro n
  induction n with
  | zero => intro lo s h _; simpa [forLoop] using h
  | succ n ih =>
    intro lo s h hstep
    have h1 : P (lo + 1) (body lo s) := hstep lo s (le_refl _) (by omega) h
    have h2 := ih (lo + 1) (body lo s) h1
      (fun i t hi hlt hp => hstep i t (by omega) (by omega) hp)
    have e : lo + (n + 1) = lo + 1 + n := by omega
    rw [e]
    simpa [forLoop] using h2

theorem getD_of_isSome {α : Type} (o : Option α) (d : α) (h : o.isSome = true) :
    o = some (o.getD d) := by
  cases o with
  | none => simp at h
  | some a => rfl

/-! ### The core selector `find_core` -/

theorem find_core_step_cases (cfg : Config) (cores : Nat → Core) (i c : Nat) :
    find_core_step cfg cores i c = i ∨ find_core_step cfg cores i c = c := by
  unfold find_core_step
  split_ifs <;> simp

/-- The loop of `find_core` ends on core 1 or on a core it has looked at. -/
theorem find_core_id_range (cfg : Config) (cores : Nat → Core) :
    1 ≤ find_core_id cfg cores ∧
      (find_core_id cfg cores = 1 ∨ find_core_id cfg cores < 1 + (cfg.NUM_OF_CORES - 1)) := by
  unfold find_core_id
  refine forLoop_invariant (find_core_step cfg cores)
    (fun i c => 1 ≤ c ∧ (c = 1 ∨ c < i)) (cfg.NUM_OF_CORES - 1) 1 1 ?_ ?_
  · simp
  · intro i c hi _ hc
    rcases find_core_step_cases cfg cores i c with h | h <;> rw [h]
    · exact ⟨hi, Or.inr (by omega)⟩
    · rcases hc with ⟨h1, h2 | h2⟩
      · exact ⟨h1, Or.inl h2⟩
      · exact ⟨h1, Or.inr (by omega)⟩

/-- C8. For every core table with `NUM_OF_CORES >= 2` and in both selection modes,
`find_core` returns a core id between 1 and `NUM_OF_CORES - 1` (never core 0),
leaves that core marked active, and changes nothing else: the other cores, the
id, weight and runs of the chosen core, and every other member of the scheduler
are as before. -/
theorem find_core_frame (cfg : Config) (s : scheduler) (hN : 2 ≤ cfg.NUM_OF_CORES) :
    1 ≤ (find_core cfg s).1 ∧ (find_core cfg s).1 ≤ cfg.NUM_OF_CORES - 1 ∧
    ((find_core cfg s).2.m_cores (find_core cfg s).1).active = true ∧
    ((find_core cfg s).2.m_cores (find_core cfg s).1).coreID
      = (s.m_cores (find_core cfg s).1).coreID ∧
    ((find_core cfg s).2.m_cores (find_core cfg s).1).weight
      = (s.m_cores (find_core cfg s).1).weight ∧
    ((find_core cfg s).2.m_cores (find_core cfg s).1).runs
      = (s.m_cores (find_core cfg s).1).runs ∧
    (∀ j, j ≠ (find_core cfg s).1 → (find_core cfg s).2.m_cores j = s.m_cores j) ∧
    (find_core cfg s).2.m_tasks = s.m_tasks ∧
    (find_core cfg s).2.m_results = s.m_results ∧
    (find_core cfg s).2.m_counter = s.m_counter ∧
    (find_core cfg s).2.m_log_timeout = s.m_log_timeout ∧
    (find_core cfg s).2.m_activationTime = s.m_activationTime ∧
    (find_core cfg s).2.m_voter = s.m_voter := by
  have hr := find_core_id_range cfg s.m_cores
  refine ⟨hr.1, ?_, ?_, ?_, ?_, ?_, ?_, rfl, rfl, rfl, rfl, rfl, rfl⟩
  · show find_core_id cfg s.m_cores ≤ cfg.NUM_OF_CORES - 1
    omega
  · simp [find_core, modCore]
  · simp [find_core, modCore]
  · simp [find_core, modCore]
  · simp [find_core, modCore]
  · intro j hj
    have hj' : j ≠ find_core_id cfg s.m_cores := hj
    simp [find_core, modCore, setAt_other _ _ hj']

/-- Witness for C8: `find_core_frame` at the core table `unevenCores` of the
four-core configuration. -/
theorem find_core_frame_witness :
    2 ≤ cfg4.NUM_OF_CORES ∧
    (1 ≤ (find_core cfg4 unevenCores).1 ∧
    (find_core cfg4 unevenCores).1 ≤ cfg4.NUM_OF_CORES - 1 ∧
    ((find_core cfg4 unevenCores).2.m_cores (find_core cfg4 unevenCores).1).active = true ∧
    ((find_core cfg4 unevenCores).2.m_cores (find_core cfg4 unevenCores).1).coreID
      = (unevenCores.m_cores (find_core cfg4 unevenCores).1).coreID ∧
    ((find_core cfg4 unevenCores).2.m_cores (find_core cfg4 unevenCores).1).weight
      = (unevenCores.m_cores (find_core cfg4 unevenCores).1).weight ∧
    ((find_core cfg4 unevenCores).2.m_cores (find_core cfg4 unevenCores).1).runs
      = (unevenCores.m_cores (find_core cfg4 unevenCores).1).runs ∧
    (∀ j, j ≠ (find_core cfg4 unevenCores).1 →
      (find_core cfg4 unevenCores).2.m_cores j = unevenCores.m_cores j) ∧
    (find_core cfg4 unevenCores).2.m_tasks = unevenCores.m_tasks ∧
    (find_core cfg4 unevenCores).2.m_results = unevenCores.m_results ∧
    (find_core cfg4 unevenCores).2.m_counter = unevenCores.m_counter ∧
    (find_core cfg4 unevenCores).2.m_log_timeout = unevenCores.m_log_timeout ∧
    (find_core cfg4 unevenCores).2.m_activationTime = unevenCores.m_activationTime ∧
    (find_core cfg4 unevenCores).2.m_voter = unevenCores.m_voter) :=
  ⟨by decide, find_core_frame cfg4 unevenCores (by decide)⟩

/-- In reliability-weighted mode, when core 1 is idle the loop of `find_core`
ends on an idle core that is best, by weight and then by fewest runs, among the
idle cores it has looked at. -/
theorem find_core_id_best (cfg : Config) (cores : Nat → Core)
    (hmode : cfg.RELIABILITY_SCHEDULING = true) (h1 : (cores 1).active = false) :
    (cores (find_core_id cfg cores)).active = false ∧
      ∀ j, 1 ≤ j → j < 1 + (cfg.NUM_OF_CORES - 1) → (cores j).active = false →
        (cores j).weight ≤ (cores (find_core_id cfg cores)).weight ∧
        ((cores j).weight = (cores (find_core_id cfg cores)).weight →
          (cores (find_core_id cfg cores)).runs ≤ (cores j).runs) := by
  unfold find_core_id
  refine forLoop_invariant (find_core_step cfg cores)
    (fun i c => (cores c).active = false ∧
      ∀ j, 1 ≤ j → j < i → (cores j).active = false →
        (cores j).weight ≤ (cores c).weight ∧
        ((cores j).weight = (cores c).weight → (cores c).runs ≤ (cores j).runs))
    (cfg.NUM_OF_CORES - 1) 1 1 ?_ ?_
  · exact ⟨h1, fun j hj hlt => by omega⟩
  · intro i c _ _ hc
    obtain ⟨hidle, hbest⟩ := hc
    unfold find_core_step
    rw [if_pos hmode]
    by_cases hi : (cores i).active = false
    · rcases lt_trichotomy (cores i).weight (cores c).weight with hlt | heq | hgt
      · -- the candidate is lighter: the best stays
        have n1 : ¬ ((cores i).active = false ∧ (cores i).weight > (cores c).weight) :=
          fun h => absurd h.2 (not_lt.mpr hlt.le)
        have n2 : ¬ ((cores i).active = false ∧ (cores i).weight = (cores c).weight) :=
          fun h => absurd h.2 hlt.ne
        rw [if_neg n1, if_neg n2]
        refine ⟨hidle, fun j hj hlt' hj' => ?_⟩
        rcases Nat.lt_succ_iff_lt_or_eq.mp hlt' with h | h
        · exact hbest j hj h hj'
        · subst h
          exact ⟨hlt.le, fun e => absurd e hlt.ne⟩
      · -- equal weights: the one with fewer runs
        have n1 : ¬ ((cores i).active = false ∧ (cores i).weight > (cores c).weight) :=
          fun h => absurd h.2 (not_lt.mpr heq.le)
        rw [if_neg n1, if_pos ⟨hi, heq⟩]
        by_cases hr : (cores i).runs < (cores c).runs
        · rw [if_pos hr]
          refine ⟨hi, fun j hj hlt' hj' => ?_⟩
          rcases Nat.lt_succ_iff_lt_or_eq.mp hlt' with h | h
          · have hb := hbest j hj h hj'
            refine ⟨by rw [heq]; exact hb.1, fun e => ?_⟩
            have := hb.2 (by rw [e, heq])
            omega
          · subst h
            exact ⟨le_refl _, fun _ => le_refl _⟩
        · rw [if_neg hr]
          refine ⟨hidle, fun j hj hlt' hj' => ?_⟩
          rcases Nat.lt_succ_iff_lt_or_eq.mp hlt' with h | h
          · exact hbest j hj h hj'
          · subst h
            exact ⟨heq.le, fun _ => not_lt.mp hr⟩
      · -- the candidate is heavier: it becomes the best
        rw [if_pos ⟨hi, hgt⟩]
        refine ⟨hi, fun j hj hlt' hj' => ?_⟩
        rcases Nat.lt_succ_iff_lt_or_eq.mp hlt' with h | h
        · have hb := hbest j hj h hj'
          exact ⟨le_of_lt (lt_of_le_of_lt hb.1 hgt),
            fun e => absurd (e ▸ hb.1) (not_le.mpr hgt)⟩
        · subst h
          exact ⟨le_refl _, fun _ => le_refl _⟩
    · -- the candidate is busy: the best stays
      have n1 : ¬ ((cores i).active = false ∧ (cores i).weight > (cores c).weight) :=
        fun h => hi h.1
      have n2 : ¬ ((cores i).active = false ∧ (cores i).weight = (cores c).weight) :=
        fun h => hi h.1
      rw [if_neg n1, if_neg n2]
      refine ⟨hidle, fun j hj hlt' hj' => ?_⟩
      rcases Nat.lt_succ_iff_lt_or_eq.mp hlt' with h | h
      · exact hbest j hj h hj'
      · subst h
        exact absurd hj' hi

/-- C2. In reliability-weighted mode, for every core table with
`NUM_OF_CORES >= 2` in which core 1 is idle, `find_core` returns a core `c` that
was idle, lies in `1..NUM_OF_CORES-1`, and is best among the idle cores of that
range: every idle core `j` has `weight j <= weight c`, and `runs j >= runs c`
when the weights are equal. Hence, when `a` and `b` are the only idle cores, `a`
is returned if the weights are equal and `a` has strictly fewer runs, and also if
`a` has the strictly higher weight. -/
theorem find_core_reliability_best (cfg : Config) (s : scheduler)
    (hmode : cfg.RELIABILITY_SCHEDULING = true) (hN : 2 ≤ cfg.NUM_OF_CORES)
    (h1 : (s.m_cores 1).active = false) :
    (s.m_cores (find_core cfg s).1).active = false ∧
    1 ≤ (find_core cfg s).1 ∧ (find_core cfg s).1 < cfg.NUM_OF_CORES ∧
    (∀ j, 1 ≤ j → j < cfg.NUM_OF_CORES → (s.m_cores j).active = false →
      (s.m_cores j).weight ≤ (s.m_cores (find_core cfg s).1).weight ∧
      ((s.m_cores j).weight = (s.m_cores (find_core cfg s).1).weight →
        (s.m_cores (find_core cfg s).1).runs ≤ (s.m_cores j).runs)) ∧
    (∀ a b, 1 ≤ a → a < cfg.NUM_OF_CORES → (s.m_cores a).active = false →
      (∀ j, 1 ≤ j → j < cfg.NUM_OF_CORES → (s.m_cores j).active = false → j = a ∨ j = b) →
      ((s.m_cores a).weight = (s.m_cores b).weight →
        (s.m_cores a).runs < (s.m_cores b).runs → (find_core cfg s).1 = a) ∧
      ((s.m_cores b).weight < (s.m_cores a).weight → (find_core cfg s).1 = a)) := by
  have hr := find_core_id_range cfg s.m_cores
  have hb := find_core_id_best cfg s.m_cores hmode h1
  have hlt : find_core_id cfg s.m_cores < cfg.NUM_OF_CORES := by omega
  have hbest : ∀ j, 1 ≤ j → j < cfg.NUM_OF_CORES → (s.m_cores j).active = false →
      (s.m_cores j).weight ≤ (s.m_cores (find_core_id cfg s.m_cores)).weight ∧
      ((s.m_cores j).weight = (s.m_cores (find_core_id cfg s.m_cores)).weight →
        (s.m_cores (find_core_id cfg s.m_cores)).runs ≤ (s.m_cores j).runs) :=
    fun j hj hjN hidle => hb.2 j hj (by omega) hidle
  refine ⟨hb.1, hr.1, hlt, hbest, ?_⟩
  intro a b ha haN haidle honly
  show (_ → _ → find_core_id cfg s.m_cores = a) ∧ (_ → find_core_id cfg s.m_cores = a)
  have hba := hbest a ha haN haidle
  rcases honly _ hr.1 hlt hb.1 with hc | hc
  · exact ⟨fun _ _ => hc, fun _ => hc⟩
  · rw [hc] at hba
    refine ⟨fun hw hruns => ?_, fun hw => ?_⟩
    · have := hba.2 hw
      omega
    · exact absurd hba.1 (not_le.mpr hw)

/-- Witness for C2: `find_core_reliability_best` at the core table `unevenCores`,
where core 1 is idle; the selector returns core 3 there (weight 100, 2 runs). -/
theorem find_core_reliability_best_witness :
    (cfg4.RELIABILITY_SCHEDULING = true ∧ 2 ≤ cfg4.NUM_OF_CORES ∧
      (unevenCores.m_cores 1).active = false ∧ (find_core cfg4 unevenCores).1 = 3) ∧
    ((unevenCores.m_cores (find_core cfg4 unevenCores).1).active = false ∧
    1 ≤ (find_core cfg4 unevenCores).1 ∧ (find_core cfg4 unevenCores).1 < cfg4.NUM_OF_CORES ∧
    (∀ j, 1 ≤ j → j < cfg4.NUM_OF_CORES → (unevenCores.m_cores j).active = false →
      (unevenCores.m_cores j).weight ≤ (unevenCores.m_cores (find_core cfg4 unevenCores).1).weight ∧
      ((unevenCores.m_cores j).weight = (unevenCores.m_cores (find_core cfg4 unevenCores).1).weight →
        (unevenCores.m_cores (find_core cfg4 unevenCores).1).runs ≤ (unevenCores.m_cores j).runs)) ∧
    (∀ a b, 1 ≤ a → a < cfg4.NUM_OF_CORES → (unevenCores.m_cores a).active = false →
      (∀ j, 1 ≤ j → j < cfg4.NUM_OF_CORES → (unevenCores.m_cores j).active = false →
        j = a ∨ j = b) →
      ((unevenCores.m_cores a).weight = (unevenCores.m_cores b).weight →
        (unevenCores.m_cores a).runs < (unevenCores.m_cores b).runs →
        (find_core cfg4 unevenCores).1 = a) ∧
      ((unevenCores.m_cores b).weight < (unevenCores.m_cores a).weight →
        (find_core cfg4 unevenCores).1 = a))) :=
  ⟨⟨rfl, by decide, rfl, by decide⟩,
    find_core_reliability_best cfg4 unevenCores rfl (by decide) rfl⟩

/-! ### The launcher `run_tasks` -/

/-- C1 (the code at the failing input). Four cores, two tasks registered with
`period = 1` right after `init_scheduler`: both tasks are fireable and cores 1, 2
and 3 are idle with equal weight and no runs, yet one `run_tasks` call gives both
tasks core 1, in the reliability-weighted build and in the build that selects by
runs only. -/
theorem run_tasks_assigns_core_1_twice :
    ((twoFireable.m_tasks 0).fireable = true ∧ (twoFireable.m_tasks 1).fireable = true) ∧
    (∀ c ∈ [1, 2, 3], (twoFireable.m_cores c).active = false ∧
      (twoFireable.m_cores c).weight = 100 ∧ (twoFireable.m_cores c).runs = 0) ∧
    (run_tasks cfg4 forks twoFireable).map
      (fun s => ((s.m_tasks 0).cpu_id, (s.m_tasks 1).cpu_id)) = some (1, 1) ∧
    (run_tasks cfg4ByRuns forks twoFireable).map
      (fun s => ((s.m_tasks 0).cpu_id, (s.m_tasks 1).cpu_id)) = some (1, 1) := by
  decide

/-- C3 (the code at the failing input). From `init_scheduler` and two `add_task`
calls, one `run_tasks` call leaves tasks 0 and 1 both active on core 1; after a
`monitor_tasks` call that reaps task 0 only, core 1 is marked idle while task 1 is
still active on it. -/
theorem two_active_tasks_share_core_1 :
    (run_tasks cfg4 forks
        (add_task 1 "B" 1 2 (add_task 0 "A" 1 1 (booted cfg4)))).map
      (fun s => ((s.m_tasks 0).active, (s.m_tasks 0).cpu_id,
        (s.m_tasks 1).active, (s.m_tasks 1).cpu_id, (s.m_cores 1).active)) =
      some (true, 1, true, 1, true) ∧
    ((run_tasks cfg4 forks
        (add_task 1 "B" 1 2 (add_task 0 "A" 1 1 (booted cfg4)))).map
        (monitor_tasks cfg4 noInput firstExits)).map
      (fun s => ((s.m_tasks 0).active, (s.m_tasks 1).active, (s.m_tasks 1).cpu_id,
        (s.m_cores 1).active)) = some (false, true, 1, false) := by
  decide!

/-! ### The monitor `monitor_tasks`: the fireable and active flags -/

@[simp] theorem modTask_m_tasks_same (s : scheduler) (i : Nat) (f : Task → Task) :
    (s.modTask i f).m_tasks i = f (s.m_tasks i) := by
  simp [modTask]

theorem modTask_m_tasks_other (s : scheduler) {i j : Nat} (f : Task → Task) (h : j ≠ i) :
    (s.modTask i f).m_tasks j = s.m_tasks j := by
  simp [modTask, setAt_other _ _ h]

@[simp] theorem modCore_m_tasks (s : scheduler) (c : Nat) (f : Core → Core) :
    (s.modCore c f).m_tasks = s.m_tasks := rfl

@[simp] theorem modTask_m_cores (s : scheduler) (i : Nat) (f : Task → Task) :
    (s.modTask i f).m_cores = s.m_cores := rfl

@[simp] theorem modTask_m_voter (s : scheduler) (i : Nat) (f : Task → Task) :
    (s.modTask i f).m_voter = s.m_voter := rfl

@[simp] theorem modCore_m_voter (s : scheduler) (c : Nat) (f : Core → Core) :
    (s.modCore c f).m_voter = s.m_voter := rfl

/-- The classification of the status word touches no task but slot `i`. -/
theorem classify_m_tasks_other (cfg : Config) (status : Int) (s : scheduler) {i j : Nat}
    (h : j ≠ i) : (classify cfg status i s).m_tasks j = s.m_tasks j := by
  simp only [classify, on_success, on_exit_failure, on_signal]
  split_ifs <;> simp [modTask_m_tasks_other _ _ h]

theorem release_m_tasks_other (s : scheduler) {i j : Nat} (h : j ≠ i) :
    (release i s).m_tasks j = s.m_tasks j := by
  simp only [release]
  split_ifs <;> simp [modTask_m_tasks_other _ _ h]

/-- One iteration of the monitor loop touches no task but its own slot. -/
theorem monitor_task_m_tasks_other (cfg : Config) (inputFull : Nat → Bool)
    (wait : Nat → WaitResult) (s : scheduler) {i j : Nat} (h : j ≠ i) :
    (monitor_task cfg inputFull wait i s).m_tasks j = s.m_tasks j := by
  simp only [monitor_task]
  split_ifs <;>
    simp [modTask_m_tasks_other _ _ h, release_m_tasks_other _ h,
      classify_m_tasks_other _ _ _ h]

theorem classify_flags (cfg : Config) (status : Int) (i : Nat) (s : scheduler) :
    ((classify cfg status i s).m_tasks i).fireable = (s.m_tasks i).fireable ∧
    ((classify cfg status i s).m_tasks i).active = (s.m_tasks i).active := by
  simp only [classify, on_success, on_exit_failure, on_signal]
  split_ifs <;> simp [Task.increment_fails]

theorem release_flags (i : Nat) (s : scheduler) :
    ((release i s).m_tasks i).fireable = (s.m_tasks i).fireable ∧
    ((release i s).m_tasks i).active = false := by
  simp only [release]
  split_ifs <;> simp

theorem monitor_task_m_voter (cfg : Config) (inputFull : Nat → Bool)
    (wait : Nat → WaitResult) (i : Nat) (s : scheduler) :
    (monitor_task cfg inputFull wait i s).m_voter = s.m_voter := by
  simp only [monitor_task, release, classify, on_success, on_exit_failure, on_signal]
  split_ifs <;> simp

theorem monitor_loop_m_voter (cfg : Config) (inputFull : Nat → Bool)
    (wait : Nat → WaitResult) (n : Nat) (s : scheduler) :
    (forLoop (monitor_task cfg inputFull wait) n 0 s).m_voter = s.m_voter := by
  have h := forLoop_invariant (monitor_task cfg inputFull wait)
    (fun _ t => t.m_voter = s.m_voter) n 0 s rfl
    (fun k t _ _ ht => (monitor_task_m_voter cfg inputFull wait k t).trans ht)
  simpa using h

theorem nmr_vote_m_tasks_other (cfg : Config) (s : scheduler) {j : Nat} (h : j ≠ s.m_voter) :
    (nmr_vote cfg s).m_tasks j = s.m_tasks j := by
  simp only [nmr_vote]
  split_ifs <;> simp [modTask_m_tasks_other _ _ h]

theorem find_core_m_tasks (cfg : Config) (s : scheduler) :
    (find_core cfg s).2.m_tasks = s.m_tasks := rfl

/-- A `run_tasks` call changes no counter and no replicate flag of any task. -/
theorem run_tasks_loop_counters (cfg : Config) (fork : Nat → Int) (n : Nat) :
    ∀ (i : Nat) (s s1 : scheduler), run_tasks_loop cfg fork n i s = some s1 →
      ∀ j, (s1.m_tasks j).success = (s.m_tasks j).success ∧
        (s1.m_tasks j).fails = (s.m_tasks j).fails ∧
        (s1.m_tasks j).replicate = (s.m_tasks j).replicate := by
  induction n with
  | zero =>
    intro i s s1 h j
    simp only [run_tasks_loop, Option.some.injEq] at h
    subst h
    exact ⟨rfl, rfl, rfl⟩
  | succ n ih =>
    intro i s s1 h j
    simp only [run_tasks_loop] at h
    split_ifs at h with hf h1 h2
    · have := ih _ _ _ h j
      rw [this.1, this.2.1, this.2.2]
      by_cases hj : j = i
      · subst hj
        simp [find_core_m_tasks]
      · simp [modTask_m_tasks_other _ _ hj, find_core_m_tasks]
    · simp only [Option.some.injEq] at h
      subst h
      exact ⟨rfl, rfl, rfl⟩

theorem wrap32_of_range (x : Int) (h1 : -2147483648 ≤ x) (h2 : x ≤ 2147483647) :
    wrap32 x = x := by
  unfold wrap32; omega

theorem wrap32_range (x : Int) : -2147483648 ≤ wrap32 x ∧ wrap32 x ≤ 2147483647 := by
  unfold wrap32; omega

theorem wrap32_idem (x : Int) : wrap32 (wrap32 x) = wrap32 x :=
  wrap32_of_range _ (wrap32_range x).1 (wrap32_range x).2

theorem wrap32_add (a b : Int) : wrap32 (wrap32 a + b) = wrap32 (a + b) := by
  unfold wrap32; omega

theorem on_success_counters (cfg : Config) (i : Nat) (s : scheduler) :
    ((on_success cfg i s).m_tasks i).success = wrap32 ((s.m_tasks i).success + 1) ∧
    ((on_success cfg i s).m_tasks i).fails = (s.m_tasks i).fails := by
  simp only [on_success]
  split_ifs <;> simp

theorem on_exit_failure_counters (cfg : Config) (i : Nat) (s : scheduler) :
    ((on_exit_failure cfg i s).m_tasks i).success = (s.m_tasks i).success ∧
    ((on_exit_failure cfg i s).m_tasks i).fails = wrap32 ((s.m_tasks i).fails + 1) := by
  simp [on_exit_failure, Task.increment_fails]

theorem on_signal_counters (cfg : Config) (i : Nat) (s : scheduler) :
    ((on_signal cfg i s).m_tasks i).success = (s.m_tasks i).success ∧
    ((on_signal cfg i s).m_tasks i).fails = wrap32 ((s.m_tasks i).fails + 1) := by
  simp [on_signal, Task.increment_fails]

theorem release_counters (i : Nat) (s : scheduler) :
    ((release i s).m_tasks i).success = (s.m_tasks i).success ∧
    ((release i s).m_tasks i).fails = (s.m_tasks i).fails := by
  simp only [release]
  split_ifs <;> simp

/-- What one iteration of the monitor loop does to the counters of its slot:
nothing unless the task is active and `waitpid` answers non-zero; then success
is incremented on exit status 0, fails is incremented on another exit status or
on a kill by signal, and neither changes otherwise. -/
theorem monitor_task_counters (cfg : Config) (inputFull : Nat → Bool)
    (wait : Nat → WaitResult) (i : Nat) (s : scheduler) :
    ((monitor_task cfg inputFull wait i s).m_tasks i).success =
      (if (s.m_tasks i).active = true ∧ (wait i).result ≠ 0 ∧ (wait i).exit_ok = true
        then wrap32 ((s.m_tasks i).success + 1) else (s.m_tasks i).success) ∧
    ((monitor_task cfg inputFull wait i s).m_tasks i).fails =
      (if (s.m_tasks i).active = true ∧ (wait i).result ≠ 0 ∧ (wait i).failed = true
        then wrap32 ((s.m_tasks i).fails + 1) else (s.m_tasks i).fails) := by
  simp only [monitor_task]
  by_cases ha : (s.m_tasks i).active = true
  · have hn : ¬ (inputFull i = true ∧ (s.m_tasks i).active = false) := by simp [ha]
    rw [if_neg hn]
    by_cases hr : (wait i).result = 0
    · simp [ha, hr]
    · have hpoll : ((s.modTask i (fun t => { t with fireable := false })).m_tasks i).fireable
            = false ∧
          ((s.modTask i (fun t => { t with fireable := false })).m_tasks i).active = true := by
        simp [ha]
      rw [if_pos hpoll, if_neg hr]
      have hrel := release_counters i (classify cfg (wait i).status i
        (s.modTask i (fun t => { t with fireable := false })))
      rw [hrel.1, hrel.2]
      simp only [classify]
      by_cases he : WIFEXITED (wait i).status = true
      · by_cases hx : WEXITSTATUS (wait i).status = 0
        · have h := on_success_counters cfg i
            (s.modTask i (fun t => { t with fireable := false }))
          simp [ha, hr, he, hx, h.1, h.2, WaitResult.exit_ok, WaitResult.failed]
        · have h := on_exit_failure_counters cfg i
            (s.modTask i (fun t => { t with fireable := false }))
          simp [ha, hr, he, hx, h.1, h.2, WaitResult.exit_ok, WaitResult.failed]
      · by_cases hs : WIFSIGNALED (wait i).status = true
        · have h := on_signal_counters cfg i
            (s.modTask i (fun t => { t with fireable := false }))
          simp [ha, hr, he, hs, h.1, h.2, WaitResult.exit_ok, WaitResult.failed]
        · simp [ha, hr, he, hs, WaitResult.exit_ok, WaitResult.failed]
  · by_cases hf : inputFull i = true <;> simp [ha, hf]

/-- The monitor loop over `n` slots gives slot `id` below `n` what its own
iteration gives it, started from a state that holds the task as it was. -/
theorem monitor_loop_slot (cfg : Config) (inputFull : Nat → Bool)
    (wait : Nat → WaitResult) (n : Nat) (s : scheduler) (id : Nat) :
    (id < n → ∃ t : scheduler, t.m_tasks id = s.m_tasks id ∧
      (forLoop (monitor_task cfg inputFull wait) n 0 s).m_tasks id =
        (monitor_task cfg inputFull wait id t).m_tasks id) ∧
    (n ≤ id → (forLoop (monitor_task cfg inputFull wait) n 0 s).m_tasks id = s.m_tasks id) := by
  have h := forLoop_invariant (monitor_task cfg inputFull wait)
    (fun k u =>
      (id < k → ∃ t : scheduler, t.m_tasks id = s.m_tasks id ∧
        u.m_tasks id = (monitor_task cfg inputFull wait id t).m_tasks id) ∧
      (k ≤ id → u.m_tasks id = s.m_tasks id))
    n 0 s ⟨fun h => by omega, fun _ => rfl⟩
    (fun k u _ _ hu => by
      refine ⟨fun hlt => ?_, fun hle => ?_⟩
      · rcases Nat.lt_succ_iff_lt_or_eq.mp hlt with h | h
        · rw [monitor_task_m_tasks_other cfg inputFull wait u (Nat.ne_of_lt h)]
          exact hu.1 h
        · subst h
          exact ⟨u, hu.2 (le_refl _), rfl⟩
      · rw [monitor_task_m_tasks_other cfg inputFull wait u (by omega)]
        exact hu.2 (by omega))
  simpa using h

theorem nmr_vote_counters (cfg : Config) (s : scheduler) (j : Nat) :
    ((nmr_vote cfg s).m_tasks j).success = (s.m_tasks j).success ∧
    ((nmr_vote cfg s).m_tasks j).fails = (s.m_tasks j).fails := by
  by_cases h : j = s.m_voter
  · subst h
    simp only [nmr_vote]
    split_ifs <;> simp
  · rw [nmr_vote_m_tasks_other cfg s h]
    exact ⟨rfl, rfl⟩

/-- What a `monitor_tasks` call does to the counters of slot `id`: success is
incremented when the call reaps the slot with exit status 0, fails is
incremented when it reaps the slot with another exit status or a kill by signal,
and nothing else changes them. -/
theorem monitor_tasks_counters (cfg : Config) (inputFull : Nat → Bool)
    (wait : Nat → WaitResult) (s : scheduler) (id : Nat) :
    ((monitor_tasks cfg inputFull wait s).m_tasks id).success =
      (if reaps cfg wait id s = true ∧ (wait id).exit_ok = true
        then wrap32 ((s.m_tasks id).success + 1) else (s.m_tasks id).success) ∧
    ((monitor_tasks cfg inputFull wait s).m_tasks id).fails =
      (if reaps cfg wait id s = true ∧ (wait id).failed = true
        then wrap32 ((s.m_tasks id).fails + 1) else (s.m_tasks id).fails) := by
  have hl := monitor_loop_slot cfg inputFull wait cfg.NUM_OF_TASKS s id
  have hloop :
      ((forLoop (monitor_task cfg inputFull wait) cfg.NUM_OF_TASKS 0 s).m_tasks id).success =
        (if reaps cfg wait id s = true ∧ (wait id).exit_ok = true
          then wrap32 ((s.m_tasks id).success + 1) else (s.m_tasks id).success) ∧
      ((forLoop (monitor_task cfg inputFull wait) cfg.NUM_OF_TASKS 0 s).m_tasks id).fails =
        (if reaps cfg wait id s = true ∧ (wait id).failed = true
          then wrap32 ((s.m_tasks id).fails + 1) else (s.m_tasks id).fails) := by
    by_cases hid : id < cfg.NUM_OF_TASKS
    · obtain ⟨t, ht, he⟩ := hl.1 hid
      have hc := monitor_task_counters cfg inputFull wait id t
      rw [he, hc.1, hc.2, ht]
      simp [reaps, hid, and_assoc]
    · rw [hl.2 (by omega)]
      simp [reaps, hid]
  simp only [monitor_tasks]
  by_cases hn : cfg.NMR = true
  · have hv := nmr_vote_counters cfg
      (forLoop (monitor_task cfg inputFull wait) cfg.NUM_OF_TASKS 0 s) id
    rw [if_pos hn, hv.1, hv.2]
    exact hloop
  · rw [if_neg hn]
    exact hloop

/-- One iteration of the monitor loop marks its task inactive exactly when the
task was active and `waitpid` answered non-zero; otherwise the flag stays. The
fireable flag it leaves says that the input was full and the task inactive when
the iteration began. -/
theorem monitor_task_active (cfg : Config) (inputFull : Nat → Bool)
    (wait : Nat → WaitResult) (i : Nat) (s : scheduler) :
    ((monitor_task cfg inputFull wait i s).m_tasks i).active =
      (if (s.m_tasks i).active = true ∧ (wait i).result ≠ 0 then false
        else (s.m_tasks i).active) ∧
    ((monitor_task cfg inputFull wait i s).m_tasks i).fireable =
      decide (inputFull i = true ∧ (s.m_tasks i).active = false) := by
  simp only [monitor_task]
  by_cases ha : (s.m_tasks i).active = true
  · have hn : ¬ (inputFull i = true ∧ (s.m_tasks i).active = false) := by simp [ha]
    rw [if_neg hn]
    by_cases hr : (wait i).result = 0
    · simp [ha, hr]
    · have hpoll : ((s.modTask i (fun t => { t with fireable := false })).m_tasks i).fireable
            = false ∧
          ((s.modTask i (fun t => { t with fireable := false })).m_tasks i).active = true := by
        simp [ha]
      rw [if_pos hpoll, if_neg hr, (release_flags i _).2, (release_flags i _).1,
        (classify_flags cfg _ i _).1]
      simp [ha, hr]
  · by_cases hf : inputFull i = true <;> simp [ha, hf]

theorem nmr_vote_active (cfg : Config) (s : scheduler) (j : Nat) :
    ((nmr_vote cfg s).m_tasks j).active = (s.m_tasks j).active := by
  by_cases h : j = s.m_voter
  · subst h
    simp only [nmr_vote]
    split_ifs <;> simp
  · rw [nmr_vote_m_tasks_other cfg s h]

/-- A `monitor_tasks` call marks slot `id` inactive when it reaps it, and leaves
the active flag of the slot alone when it does not. -/
theorem monitor_tasks_active (cfg : Config) (inputFull : Nat → Bool)
    (wait : Nat → WaitResult) (s : scheduler) (id : Nat) :
    ((monitor_tasks cfg inputFull wait s).m_tasks id).active =
      (if reaps cfg wait id s = true then false else (s.m_tasks id).active) := by
  have hl := monitor_loop_slot cfg inputFull wait cfg.NUM_OF_TASKS s id
  have hloop :
      ((forLoop (monitor_task cfg inputFull wait) cfg.NUM_OF_TASKS 0 s).m_tasks id).active =
        (if reaps cfg wait id s = true then false else (s.m_tasks id).active) := by
    by_cases hid : id < cfg.NUM_OF_TASKS
    · obtain ⟨t, ht, he⟩ := hl.1 hid
      rw [he, (monitor_task_active cfg inputFull wait id t).1, ht]
      simp [reaps, hid]
    · rw [hl.2 (by omega)]
      simp [reaps, hid]
  simp only [monitor_tasks]
  by_cases hn : cfg.NMR = true
  · rw [if_pos hn, nmr_vote_active]
    exact hloop
  · rw [if_neg hn]
    exact hloop

/-- In a build without `NMR`, a `monitor_tasks` call leaves a task slot fireable
exactly when its input was full and the task inactive. -/
theorem monitor_tasks_fireable (cfg : Config) (inputFull : Nat → Bool)
    (wait : Nat → WaitResult) (s : scheduler) (id : Nat) (hn : cfg.NMR = false)
    (hid : id < cfg.NUM_OF_TASKS) :
    ((monitor_tasks cfg inputFull wait s).m_tasks id).fireable =
      decide (inputFull id = true ∧ (s.m_tasks id).active = false) := by
  have hl := monitor_loop_slot cfg inputFull wait cfg.NUM_OF_TASKS s id
  obtain ⟨t, ht, he⟩ := hl.1 hid
  simp only [monitor_tasks]
  rw [if_neg (by simp [hn]), he, (monitor_task_active cfg inputFull wait id t).2, ht]

/-- Along any sequence of calls, success is the start value plus the number of
reaps with exit status 0, and fails the start value plus the number of reaps with
another exit status or a kill by signal, both as a 32-bit `int` holds them. -/
theorem calls_counters (cfg : Config) (id : Nat) (cs : List Call) :
    ∀ (s s1 : scheduler), calls cfg cs s = some s1 →
      wrap32 (s.m_tasks id).success = (s.m_tasks id).success →
      wrap32 (s.m_tasks id).fails = (s.m_tasks id).fails →
      (s1.m_tasks id).success =
        wrap32 ((s.m_tasks id).success + (reap_count cfg WaitResult.exit_ok id cs s : Int)) ∧
      (s1.m_tasks id).fails =
        wrap32 ((s.m_tasks id).fails + (reap_count cfg WaitResult.failed id cs s : Int)) := by
  induction cs with
  | nil =>
    intro s s1 h hs hf
    simp only [calls, Option.some.injEq] at h
    subst h
    simp [reap_count, hs, hf]
  | cons c cs ih =>
    intro s s1 h hs hf
    cases c with
    | run_tasks fork =>
      simp only [calls, call] at h
      cases hr : run_tasks cfg fork s with
      | none => rw [hr] at h; simp at h
      | some s2 =>
        rw [hr] at h
        have hc := run_tasks_loop_counters cfg fork cfg.NUM_OF_TASKS 0 s s2 hr id
        have h2 := ih s2 s1 h (by rw [hc.1]; exact hs) (by rw [hc.2.1]; exact hf)
        simp only [reap_count, call, hr]
        rw [h2.1, h2.2, hc.1, hc.2.1]
        simp
    | monitor_tasks inputFull wait =>
      simp only [calls, call] at h
      have hc := monitor_tasks_counters cfg inputFull wait s id
      have hs2 : wrap32 ((monitor_tasks cfg inputFull wait s).m_tasks id).success
          = ((monitor_tasks cfg inputFull wait s).m_tasks id).success := by
        rw [hc.1]; split_ifs
        · exact wrap32_idem _
        · exact hs
      have hf2 : wrap32 ((monitor_tasks cfg inputFull wait s).m_tasks id).fails
          = ((monitor_tasks cfg inputFull wait s).m_tasks id).fails := by
        rw [hc.2]; split_ifs
        · exact wrap32_idem _
        · exact hf
      have h2 := ih _ s1 h hs2 hf2
      simp only [reap_count, call]
      rw [h2.1, h2.2, hc.1, hc.2]
      constructor
      · by_cases hq : reaps cfg wait id s = true ∧ (wait id).exit_ok = true
        · rw [if_pos hq, wrap32_add]
          simp [hq.1, hq.2]
          congr 1; ring
        · rw [if_neg hq]
          have : (reaps cfg wait id s && (wait id).exit_ok) = false := by
            simpa using hq
          simp [this]
      · by_cases hq : reaps cfg wait id s = true ∧ (wait id).failed = true
        · rw [if_pos hq, wrap32_add]
          simp [hq.1, hq.2]
          congr 1; ring
        · rw [if_neg hq]
          have : (reaps cfg wait id s && (wait id).failed) = false := by
            simpa using hq
          simp [this]

/-- A valid non-zero outcome of `waitpid` is a success or a failure, not both. -/
theorem valid_exit_ok_or_failed (w : WaitResult) (hv : w.valid = true) (hr : w.result ≠ 0) :
    (w.exit_ok = true ∧ w.failed = false) ∨ (w.exit_ok = false ∧ w.failed = true) := by
  have ht : w.terminated = true := by
    simpa [WaitResult.valid, hr] using hv
  by_cases he : WIFEXITED w.status = true
  · by_cases hx : WEXITSTATUS w.status = 0
    · left; simp [WaitResult.exit_ok, WaitResult.failed, he, hx]
    · right; simp [WaitResult.exit_ok, WaitResult.failed, he, hx]
  · have hs : WIFSIGNALED w.status = true := by
      simpa [WaitResult.terminated, he] using ht
    right; simp [WaitResult.exit_ok, WaitResult.failed, he, hs]

/-- With valid `waitpid` outcomes, every reap is a success or a failure: the
number of reaps is the number of the ones plus the number of the others. -/
theorem reap_count_split (cfg : Config) (id : Nat) (cs : List Call) :
    ∀ s : scheduler, (∀ c ∈ cs, c.valid_for id = true) →
      reap_count cfg (fun _ => true) id cs s =
        reap_count cfg WaitResult.exit_ok id cs s + reap_count cfg WaitResult.failed id cs s := by
  induction cs with
  | nil => intro s _; simp [reap_count]
  | cons c cs ih =>
    intro s hv
    have hc := hv c (List.mem_cons_self _ _)
    have hrest : ∀ c1 ∈ cs, c1.valid_for id = true :=
      fun c1 h1 => hv c1 (List.mem_cons_of_mem _ h1)
    cases c with
    | run_tasks fork =>
      simp only [reap_count, call]
      cases run_tasks cfg fork s with
      | none => simp
      | some s2 => simpa using ih s2 hrest
    | monitor_tasks inputFull wait =>
      simp only [reap_count, call]
      rw [ih _ hrest]
      by_cases hreap : reaps cfg wait id s = true
      · have hr : (wait id).result ≠ 0 := by
          have := hreap
          simp only [reaps, decide_eq_true_eq] at this
          exact this.2.2
        rcases valid_exit_ok_or_failed (wait id) hc hr with h | h
        · simp [hreap, h.1, h.2]; omega
        · simp [hreap, h.1, h.2]; omega
      · have hfalse : reaps cfg wait id s = false := by simpa using hreap
        simp [hfalse]

/-- C4 (as amended). In every state reached from the `add_task` registration of a
slot by `run_tasks` and `monitor_tasks` calls, with any answers of `fork` and
`task_input_full` and any outcomes of `waitpid` (0, or a status that reports a
normal exit or a kill by a signal), in which the slot has been reaped at most
`INT_MAX` times, success count + fail count of the slot equals the number of
times `monitor_tasks` has reaped it. Every further reap that keeps the number
within `INT_MAX` marks the task inactive and increments exactly one of the two
counters by exactly one. -/
theorem counters_match_reaps (cfg : Config) (s0 s : scheduler) (id : Nat)
    (name : String) (period : Int) (function : Nat) (cs : List Call)
    (h : calls cfg cs (add_task id name period function s0) = some s)
    (hvalid : ∀ c ∈ cs, c.valid_for id = true)
    (hbound : reap_count cfg (fun _ => true) id cs (add_task id name period function s0)
      ≤ 2147483647) :
    (s.m_tasks id).success + (s.m_tasks id).fails =
      (reap_count cfg (fun _ => true) id cs (add_task id name period function s0) : Int) ∧
    ∀ (inputFull : Nat → Bool) (wait : Nat → WaitResult),
      reaps cfg wait id s = true → (wait id).valid = true →
      reap_count cfg (fun _ => true) id cs (add_task id name period function s0) + 1
        ≤ 2147483647 →
        ((monitor_tasks cfg inputFull wait s).m_tasks id).active = false ∧
        ((((monitor_tasks cfg inputFull wait s).m_tasks id).success = (s.m_tasks id).success + 1 ∧
          ((monitor_tasks cfg inputFull wait s).m_tasks id).fails = (s.m_tasks id).fails) ∨
         (((monitor_tasks cfg inputFull wait s).m_tasks id).success = (s.m_tasks id).success ∧
          ((monitor_tasks cfg inputFull wait s).m_tasks id).fails = (s.m_tasks id).fails + 1)) := by
  have hc := calls_counters cfg id cs _ s h (by simp [add_task, wrap32])
    (by simp [add_task, wrap32])
  have hsplit := reap_count_split cfg id cs (add_task id name period function s0) hvalid
  have hs0 : ((add_task id name period function s0).m_tasks id).success = 0 := by
    simp [add_task]
  have hf0 : ((add_task id name period function s0).m_tasks id).fails = 0 := by
    simp [add_task]
  rw [hs0, hf0] at hc
  have hsucc : (s.m_tasks id).success =
      (reap_count cfg WaitResult.exit_ok id cs (add_task id name period function s0) : Int) := by
    rw [hc.1, zero_add]
    exact wrap32_of_range
      (reap_count cfg WaitResult.exit_ok id cs (add_task id name period function s0) : Int)
      (by omega) (by omega)
  have hfail : (s.m_tasks id).fails =
      (reap_count cfg WaitResult.failed id cs (add_task id name period function s0) : Int) := by
    rw [hc.2, zero_add]
    exact wrap32_of_range
      (reap_count cfg WaitResult.failed id cs (add_task id name period function s0) : Int)
      (by omega) (by omega)
  refine ⟨by rw [hsucc, hfail, hsplit]; push_cast; ring, ?_⟩
  intro inputFull wait hreap hv hnext
  have ha := monitor_tasks_active cfg inputFull wait s id
  have hm := monitor_tasks_counters cfg inputFull wait s id
  rw [if_pos hreap] at ha
  refine ⟨ha, ?_⟩
  have hr : (wait id).result ≠ 0 := by
    have := hreap
    simp only [reaps, decide_eq_true_eq] at this
    exact this.2.2
  rw [hm.1, hm.2]
  rcases valid_exit_ok_or_failed (wait id) hv hr with hq | hq
  · left
    rw [if_pos ⟨hreap, hq.1⟩, if_neg (by simp [hq.2])]
    exact ⟨wrap32_of_range _ (by omega) (by omega), rfl⟩
  · right
    rw [if_neg (by simp [hq.1]), if_pos ⟨hreap, hq.2⟩]
    exact ⟨rfl, wrap32_of_range _ (by omega) (by omega)⟩

/-- Witness for C4 (as amended): `counters_match_reaps` along
`twoRoundsAndLaunch`, where slot 0 is reaped once with exit status 0 and once
with exit status 1 and is running again: both sides of the equation are 2, and a
`monitor_tasks` call with the outcomes `exit0` would reap the slot. -/
theorem counters_match_reaps_witness :
    (calls cfg50 twoRoundsAndLaunch (add_task 0 "A" 1 1 (booted cfg50)) = some thirdLaunch ∧
      (∀ c ∈ twoRoundsAndLaunch, c.valid_for 0 = true) ∧
      reap_count cfg50 (fun _ => true) 0 twoRoundsAndLaunch
        (add_task 0 "A" 1 1 (booted cfg50)) = 2 ∧
      (thirdLaunch.m_tasks 0).success = 1 ∧ (thirdLaunch.m_tasks 0).fails = 1 ∧
      reaps cfg50 exit0 0 thirdLaunch = true ∧ (exit0 0).valid = true) ∧
    ((thirdLaunch.m_tasks 0).success + (thirdLaunch.m_tasks 0).fails =
      (reap_count cfg50 (fun _ => true) 0 twoRoundsAndLaunch
        (add_task 0 "A" 1 1 (booted cfg50)) : Int) ∧
    ∀ (inputFull : Nat → Bool) (wait : Nat → WaitResult),
      reaps cfg50 wait 0 thirdLaunch = true → (wait 0).valid = true →
      reap_count cfg50 (fun _ => true) 0 twoRoundsAndLaunch
          (add_task 0 "A" 1 1 (booted cfg50)) + 1 ≤ 2147483647 →
        ((monitor_tasks cfg50 inputFull wait thirdLaunch).m_tasks 0).active = false ∧
        ((((monitor_tasks cfg50 inputFull wait thirdLaunch).m_tasks 0).success
              = (thirdLaunch.m_tasks 0).success + 1 ∧
          ((monitor_tasks cfg50 inputFull wait thirdLaunch).m_tasks 0).fails
              = (thirdLaunch.m_tasks 0).fails) ∨
         (((monitor_tasks cfg50 inputFull wait thirdLaunch).m_tasks 0).success
              = (thirdLaunch.m_tasks 0).success ∧
          ((monitor_tasks cfg50 inputFull wait thirdLaunch).m_tasks 0).fails
              = (thirdLaunch.m_tasks 0).fails + 1))) :=
  ⟨⟨getD_of_isSome _ _ (by decide!), by decide, by decide!, by decide!, by decide!,
      by decide!, by decide⟩,
    counters_match_reaps cfg50 (booted cfg50) thirdLaunch 0 "A" 1 1 twoRoundsAndLaunch
      (getD_of_isSome _ _ (by decide!)) (by decide) (by decide!)⟩

/-- With one task slot, a `run_tasks` call in which `fork` succeeds launches a
fireable task 0: it comes out active, still fireable, its counters as before. -/
theorem run_tasks_single (cfg : Config) (fork : Nat → Int) (s : scheduler)
    (hN : cfg.NUM_OF_TASKS = 1) (hf : (s.m_tasks 0).fireable = true)
    (h1 : fork 0 ≠ -1) (h2 : fork 0 ≠ 0) :
    ∃ s1, run_tasks cfg fork s = some s1 ∧ (s1.m_tasks 0).active = true ∧
      (s1.m_tasks 0).fireable = true ∧
      (s1.m_tasks 0).success = (s.m_tasks 0).success ∧
      (s1.m_tasks 0).fails = (s.m_tasks 0).fails := by
  simp only [run_tasks, hN, run_tasks_loop]
  rw [if_pos hf, if_neg h1, if_neg h2]
  refine ⟨_, rfl, ?_, ?_, ?_, ?_⟩ <;> simp [find_core_m_tasks, hf]

/-- The effect of `n` rounds of launch and reap with exit status 0 on the single
task of `cfg50`: `n` reaps, success incremented `n` times as an `int`, fails as
it was. -/
theorem exit0_rounds_effect (n : Nat) :
    ∀ s : scheduler, (s.m_tasks 0).active = false → (s.m_tasks 0).fireable = true →
      wrap32 (s.m_tasks 0).success = (s.m_tasks 0).success →
      ∃ s1, calls cfg50 (exit0_rounds n) s = some s1 ∧
        (s1.m_tasks 0).success = wrap32 ((s.m_tasks 0).success + (n : Int)) ∧
        (s1.m_tasks 0).fails = (s.m_tasks 0).fails ∧
        reap_count cfg50 (fun _ => true) 0 (exit0_rounds n) s = n := by
  induction n with
  | zero =>
    intro s _ _ hs
    exact ⟨s, rfl, by simp [hs], rfl, rfl⟩
  | succ n ih =>
    intro s ha hf hs
    obtain ⟨s1, hrun, ha1, _, hs1, hf1⟩ :=
      run_tasks_single cfg50 forks s rfl hf (by decide) (by decide)
    have hreap1 : reaps cfg50 exit0 0 s1 = true := by
      simp [reaps, ha1, cfg50, exit0]
    have hok : (exit0 0).exit_ok = true := by decide
    have hnf : (exit0 0).failed = false := by decide
    have hc2 := monitor_tasks_counters cfg50 allInput exit0 s1 0
    have ha2 := monitor_tasks_active cfg50 allInput exit0 s1 0
    rw [if_pos ⟨hreap1, hok⟩, if_neg (by simp [hnf])] at hc2
    rw [if_pos hreap1] at ha2
    have hreap2 : reaps cfg50 exit0 0 (monitor_tasks cfg50 allInput exit0 s1) = false := by
      simp [reaps, ha2]
    have hc3 := monitor_tasks_counters cfg50 allInput exit0
      (monitor_tasks cfg50 allInput exit0 s1) 0
    have ha3 := monitor_tasks_active cfg50 allInput exit0
      (monitor_tasks cfg50 allInput exit0 s1) 0
    have hfire3 := monitor_tasks_fireable cfg50 allInput exit0
      (monitor_tasks cfg50 allInput exit0 s1) 0 rfl (by decide)
    rw [if_neg (by simp [hreap2]), if_neg (by simp [hreap2])] at hc3
    rw [if_neg (by simp [hreap2]), ha2] at ha3
    rw [ha2] at hfire3
    obtain ⟨s4, hcalls, hs4, hf4, hcount⟩ := ih
      (monitor_tasks cfg50 allInput exit0 (monitor_tasks cfg50 allInput exit0 s1))
      ha3 (by simpa [allInput] using hfire3)
      (by rw [hc3.1, hc2.1]; exact wrap32_idem _)
    refine ⟨s4, ?_, ?_, ?_, ?_⟩
    · simp only [exit0_rounds, calls, call, hrun]
      exact hcalls
    · rw [hs4, hc3.1, hc2.1, hs1, wrap32_add]
      congr 1
      push_cast
      ring
    · rw [hf4, hc3.2, hc2.2, hf1]
    · simp only [exit0_rounds, reap_count, call, hrun, hreap1, hreap2, hcount]
      simp
      ring

theorem exit0_rounds_valid (n : Nat) : ∀ c ∈ exit0_rounds n, c.valid_for 0 = true := by
  induction n with
  | zero => intro c hc; simp [exit0_rounds] at hc
  | succ n ih =>
    intro c hc
    simp only [exit0_rounds, List.mem_cons] at hc
    rcases hc with h | h | h | h
    · subst h; rfl
    · subst h; decide
    · subst h; decide
    · exact ih c h

/-- Counterexample to C4 as stated: from the `add_task` registration of task 0,
the `3 * 2^31` calls of `exit0_rounds 2147483648` (launch, reap with exit status
0, find the input ready, `2^31` times over, every `waitpid` outcome valid) reap
the task `2^31` times and leave success + fails at `-2^31`: the `int` success
counter has wrapped. -/
theorem counters_wrap_past_int_max :
    (∀ c ∈ exit0_rounds 2147483648, c.valid_for 0 = true) ∧
    ∃ s, calls cfg50 (exit0_rounds 2147483648) (add_task 0 "A" 1 1 (booted cfg50)) = some s ∧
      reap_count cfg50 (fun _ => true) 0 (exit0_rounds 2147483648)
        (add_task 0 "A" 1 1 (booted cfg50)) = 2147483648 ∧
      (s.m_tasks 0).success + (s.m_tasks 0).fails = -2147483648 := by
  obtain ⟨s, hcalls, hs, hf, hcount⟩ := exit0_rounds_effect 2147483648
    (add_task 0 "A" 1 1 (booted cfg50)) (by decide) (by decide) (by decide)
  refine ⟨exit0_rounds_valid 2147483648, s, hcalls, hcount, ?_⟩
  rw [hs, hf]
  have e1 : ((add_task 0 "A" 1 1 (booted cfg50)).m_tasks 0).success = 0 := by decide
  have e2 : ((add_task 0 "A" 1 1 (booted cfg50)).m_tasks 0).fails = 0 := by decide
  rw [e1, e2]
  decide

/-! ### The monitor `monitor_tasks`: the effect of a reap on core and task -/

@[simp] theorem modCore_m_cores_same (s : scheduler) (c : Nat) (f : Core → Core) :
    (s.modCore c f).m_cores c = f (s.m_cores c) := by
  simp [modCore]

theorem release_core (i : Nat) (s : scheduler) :
    ((release i s).m_cores (s.m_tasks i).cpu_id).runs =
      wrap32 ((s.m_cores (s.m_tasks i).cpu_id).runs + 1) ∧
    ((release i s).m_cores (s.m_tasks i).cpu_id).active = false ∧
    ((release i s).m_cores (s.m_tasks i).cpu_id).weight = (s.m_cores (s.m_tasks i).cpu_id).weight := by
  simp only [release]
  split_ifs <;> simp [Core.increase_runs]

theorem release_cpu_id (i : Nat) (s : scheduler) :
    ((release i s).m_tasks i).cpu_id = (s.m_tasks i).cpu_id := by
  simp only [release]
  split_ifs <;> simp

/-- The success branch leaves on the task's core the weight plus the increment
when that does not exceed `MAX_CORE_WEIGHT`, and the literal 100 when it does. -/
theorem on_success_weight (cfg : Config) (i : Nat) (s : scheduler) :
    ((on_success cfg i s).m_cores (s.m_tasks i).cpu_id).weight =
      (if (s.m_cores (s.m_tasks i).cpu_id).weight + cfg.weight_increment > cfg.MAX_CORE_WEIGHT
        then 100 else (s.m_cores (s.m_tasks i).cpu_id).weight + cfg.weight_increment) ∧
    ((on_success cfg i s).m_cores (s.m_tasks i).cpu_id).runs =
      (s.m_cores (s.m_tasks i).cpu_id).runs ∧
    ((on_success cfg i s).m_tasks i).cpu_id = (s.m_tasks i).cpu_id := by
  simp only [on_success]
  split_ifs with h <;> simp_all [Core.increase_weight]

theorem on_exit_failure_weight (cfg : Config) (i : Nat) (s : scheduler) :
    ((on_exit_failure cfg i s).m_cores (s.m_tasks i).cpu_id).weight =
      (s.m_cores (s.m_tasks i).cpu_id).weight - cfg.weight_decrement ∧
    ((on_exit_failure cfg i s).m_cores (s.m_tasks i).cpu_id).runs =
      (s.m_cores (s.m_tasks i).cpu_id).runs ∧
    ((on_exit_failure cfg i s).m_tasks i).cpu_id = (s.m_tasks i).cpu_id := by
  simp [on_exit_failure, Core.decrease_weight, Task.increment_fails]

theorem on_signal_weight (cfg : Config) (i : Nat) (s : scheduler) :
    ((on_signal cfg i s).m_cores (s.m_tasks i).cpu_id).weight =
      (s.m_cores (s.m_tasks i).cpu_id).weight - cfg.weight_decrement ∧
    ((on_signal cfg i s).m_cores (s.m_tasks i).cpu_id).runs =
      (s.m_cores (s.m_tasks i).cpu_id).runs ∧
    ((on_signal cfg i s).m_tasks i).cpu_id = (s.m_tasks i).cpu_id := by
  simp [on_signal, Core.decrease_weight, Task.increment_fails]

/-- What the iteration of the monitor loop for slot `i` does when it reaps the
task (active, `waitpid` non-zero), `c` being the task's core and `w` its weight:
the task becomes inactive, `c` gets one more run and becomes inactive; on exit
status 0 success is incremented and the weight of `c` becomes `w + increment`
when that is at most `MAX_CORE_WEIGHT` and the literal 100 when it is more; on
another exit status or a kill by signal fails is incremented and the weight
becomes `w - decrement`. The three counters are incremented as `int`s. -/
theorem monitor_task_reap (cfg : Config) (inputFull : Nat → Bool)
    (wait : Nat → WaitResult) (i : Nat) (s : scheduler)
    (ha : (s.m_tasks i).active = true) (hr : (wait i).result ≠ 0) :
    ((monitor_task cfg inputFull wait i s).m_tasks i).active = false ∧
    ((monitor_task cfg inputFull wait i s).m_cores (s.m_tasks i).cpu_id).runs =
      wrap32 ((s.m_cores (s.m_tasks i).cpu_id).runs + 1) ∧
    ((monitor_task cfg inputFull wait i s).m_cores (s.m_tasks i).cpu_id).active = false ∧
    (WIFEXITED (wait i).status = true → WEXITSTATUS (wait i).status = 0 →
      ((monitor_task cfg inputFull wait i s).m_tasks i).success =
        wrap32 ((s.m_tasks i).success + 1) ∧
      ((monitor_task cfg inputFull wait i s).m_tasks i).fails = (s.m_tasks i).fails ∧
      ((monitor_task cfg inputFull wait i s).m_cores (s.m_tasks i).cpu_id).weight =
        (if (s.m_cores (s.m_tasks i).cpu_id).weight + cfg.weight_increment > cfg.MAX_CORE_WEIGHT
          then 100 else (s.m_cores (s.m_tasks i).cpu_id).weight + cfg.weight_increment)) ∧
    ((WIFEXITED (wait i).status = true ∧ WEXITSTATUS (wait i).status ≠ 0) ∨
        (WIFEXITED (wait i).status = false ∧ WIFSIGNALED (wait i).status = true) →
      ((monitor_task cfg inputFull wait i s).m_tasks i).success = (s.m_tasks i).success ∧
      ((monitor_task cfg inputFull wait i s).m_tasks i).fails =
        wrap32 ((s.m_tasks i).fails + 1) ∧
      ((monitor_task cfg inputFull wait i s).m_cores (s.m_tasks i).cpu_id).weight =
        (s.m_cores (s.m_tasks i).cpu_id).weight - cfg.weight_decrement) := by
  have hact := (monitor_task_active cfg inputFull wait i s).1
  have hcnt := monitor_task_counters cfg inputFull wait i s
  rw [if_pos ⟨ha, hr⟩] at hact
  have hn : ¬ (inputFull i = true ∧ (s.m_tasks i).active = false) := by simp [ha]
  have hpoll : ((s.modTask i (fun t => { t with fireable := false })).m_tasks i).fireable
        = false ∧
      ((s.modTask i (fun t => { t with fireable := false })).m_tasks i).active = true := by
    simp [ha]
  have hstep : monitor_task cfg inputFull wait i s =
      release i (classify cfg (wait i).status i
        (s.modTask i (fun t => { t with fireable := false }))) := by
    simp only [monitor_task]
    rw [if_neg hn, if_pos hpoll, if_neg hr]
  have hs1 : ((s.modTask i (fun t => { t with fireable := false })).m_tasks i).cpu_id
      = (s.m_tasks i).cpu_id := by simp
  have hcls : ((classify cfg (wait i).status i
        (s.modTask i (fun t => { t with fireable := false }))).m_tasks i).cpu_id
        = (s.m_tasks i).cpu_id ∧
      ((classify cfg (wait i).status i
        (s.modTask i (fun t => { t with fireable := false }))).m_cores (s.m_tasks i).cpu_id).runs
        = (s.m_cores (s.m_tasks i).cpu_id).runs := by
    simp only [classify]
    split_ifs
    · have h := on_success_weight cfg i (s.modTask i (fun t => { t with fireable := false }))
      rw [hs1] at h
      exact ⟨h.2.2, h.2.1⟩
    · have h := on_exit_failure_weight cfg i (s.modTask i (fun t => { t with fireable := false }))
      rw [hs1] at h
      exact ⟨h.2.2, h.2.1⟩
    · have h := on_signal_weight cfg i (s.modTask i (fun t => { t with fireable := false }))
      rw [hs1] at h
      exact ⟨h.2.2, h.2.1⟩
    · exact ⟨hs1, rfl⟩
  have hrel := release_core i (classify cfg (wait i).status i
    (s.modTask i (fun t => { t with fireable := false })))
  rw [hcls.1] at hrel
  refine ⟨hact, ?_, ?_, ?_, ?_⟩
  · rw [hstep, hrel.1, hcls.2]
  · rw [hstep, hrel.2.1]
  · intro he hx
    refine ⟨by simp [hcnt.1, ha, hr, he, hx, WaitResult.exit_ok],
      by simp [hcnt.2, ha, hr, he, hx, WaitResult.failed], ?_⟩
    rw [hstep, hrel.2.2]
    simp only [classify]
    rw [if_pos he, if_pos hx]
    have h := on_success_weight cfg i (s.modTask i (fun t => { t with fireable := false }))
    rw [hs1] at h
    exact h.1
  · intro hcase
    have hfail : ((monitor_task cfg inputFull wait i s).m_tasks i).fails
        = wrap32 ((s.m_tasks i).fails + 1) := by
      rw [hcnt.2, if_pos ⟨ha, hr, by
        rcases hcase with ⟨he, hx⟩ | ⟨he, hs⟩
        · simp [WaitResult.failed, he, hx]
        · simp [WaitResult.failed, he, hs]⟩]
    have hsucc : ((monitor_task cfg inputFull wait i s).m_tasks i).success
        = (s.m_tasks i).success := by
      rw [hcnt.1]
      rcases hcase with ⟨he, hx⟩ | ⟨he, hs⟩
      · simp [WaitResult.exit_ok, hx]
      · simp [WaitResult.exit_ok, he]
    refine ⟨hsucc, hfail, ?_⟩
    rw [hstep, hrel.2.2]
    simp only [classify]
    rcases hcase with ⟨he, hx⟩ | ⟨he, hs⟩
    · rw [if_pos he, if_neg hx]
      have h := on_exit_failure_weight cfg i (s.modTask i (fun t => { t with fireable := false }))
      rw [hs1] at h
      exact h.1
    · have he2 : ¬ WIFEXITED (wait i).status = true := by simp [he]
      rw [if_neg he2, if_pos hs]
      have h := on_signal_weight cfg i (s.modTask i (fun t => { t with fireable := false }))
      rw [hs1] at h
      exact h.1

/-- C7 (the code at the failing input). With `MAX_CORE_WEIGHT = 200` and an
increment of 1, a task launched on the fresh core 1 (weight 200) and reaped with
exit status 0 ends with success 1, fails 0, one run on core 1, and weight 100 on
core 1, where `min (200 + 1) 200` is 200. -/
theorem success_cap_writes_100 :
    (run_tasks cfg200 forks (oneFireable cfg200)).map
      (fun s => ((s.m_tasks 0).active, (s.m_tasks 0).cpu_id, (s.m_cores 1).weight)) =
      some (true, 1, 200) ∧
    ((run_tasks cfg200 forks (oneFireable cfg200)).map
        (monitor_tasks cfg200 noInput exit0)).map
      (fun s => ((s.m_tasks 0).success, (s.m_tasks 0).fails, (s.m_cores 1).runs,
        (s.m_cores 1).weight)) = some (1, 0, 1, 100) ∧
    min ((200 : ℚ) + cfg200.weight_increment) cfg200.MAX_CORE_WEIGHT = 200 := by
  decide!

/-- C5 (the code at the failing input). With `MAX_CORE_WEIGHT = 50`, one task
launched after `init_scheduler` and reaped with exit status 0 leaves core 1 with
weight 100, above the maximum. -/
theorem weight_exceeds_max_after_success :
    cfg50.MAX_CORE_WEIGHT = 50 ∧
    ((run_tasks cfg50 forks (oneFireable cfg50)).map
        (monitor_tasks cfg50 noInput exit0)).map
      (fun s => ((s.m_cores 1).weight, decide ((s.m_cores 1).weight ≤ cfg50.MAX_CORE_WEIGHT))) =
      some (100, false) := by
  decide!

/-! ### The sampler `log_results` and the report -/

/-- The loop of `log_results` leaves every entry from `NUM_OF_CORES` on as it
was. -/
theorem log_core_loop_frame (s : scheduler) (n : Nat) (r : SampleRecord) :
    ∀ j, n ≤ j →
      (forLoop (log_core s) n 0 r).m_cores j = r.m_cores j ∧
      (forLoop (log_core s) n 0 r).m_weights j = r.m_weights j := by
  have h := forLoop_invariant (log_core s)
    (fun i t => ∀ j, i ≤ j → t.m_cores j = r.m_cores j ∧ t.m_weights j = r.m_weights j)
    n 0 r (fun j _ => ⟨rfl, rfl⟩)
    (fun i t _ _ ht j hj => by
      have hne : j ≠ i := by omega
      have := ht j (by omega)
      simpa [log_core, setAt_other _ _ hne] using this)
  simpa using h

/-- A `log_results` call keeps the cursor between 0 and `NUM_OF_SAMPLES`. -/
theorem log_results_counter (cfg : Config) (t : Int) (s : scheduler)
    (h : 0 ≤ s.m_counter ∧ s.m_counter ≤ cfg.NUM_OF_SAMPLES) :
    0 ≤ (log_results cfg t s).m_counter ∧
      (log_results cfg t s).m_counter ≤ cfg.NUM_OF_SAMPLES := by
  unfold log_results
  split_ifs with hc
  · simp only
    omega
  · exact h

theorem log_trace_counter (cfg : Config) (clock : List Int) :
    ∀ s : scheduler, 0 ≤ s.m_counter ∧ s.m_counter ≤ cfg.NUM_OF_SAMPLES →
      0 ≤ (log_trace cfg clock s).m_counter ∧
      (log_trace cfg clock s).m_counter ≤ cfg.NUM_OF_SAMPLES := by
  induction clock with
  | nil => intro s h; simpa [log_trace] using h
  | cons t clock ih =>
    intro s h
    simpa [log_trace] using ih _ (log_results_counter cfg t s h)

/-- Whatever the cursor, a `log_results` call changes a cell of `m_results` only
at the cursor, and only for a cursor below `NUM_OF_SAMPLES` and a core index
below `NUM_OF_CORES`. -/
theorem log_results_writes (cfg : Config) (t : Int) (s : scheduler) (k : Int) (i : Nat)
    (h : ((log_results cfg t s).m_results k).m_cores i ≠ (s.m_results k).m_cores i ∨
      ((log_results cfg t s).m_results k).m_weights i ≠ (s.m_results k).m_weights i) :
    k = s.m_counter ∧ k < cfg.NUM_OF_SAMPLES ∧ i < cfg.NUM_OF_CORES := by
  unfold log_results at h
  split_ifs at h with hc
  · by_cases hk : k = s.m_counter
    · subst hk
      refine ⟨rfl, hc.2, ?_⟩
      by_contra hi
      have := log_core_loop_frame s cfg.NUM_OF_CORES (s.m_results s.m_counter) i (by omega)
      simp [this.1, this.2] at h
    · simp [setAt_other _ _ hk] at h
  · simp at h

/-- C10. In every state reached from `init_scheduler` by `log_results` calls at
any clock values, the cursor satisfies `0 <= m_counter <= NUM_OF_SAMPLES`; a
further `log_results` call changes `m_results` only at an index `k` with
`0 <= k < NUM_OF_SAMPLES` (and only at core indices below `NUM_OF_CORES`); and a
call made when `m_counter = NUM_OF_SAMPLES` leaves the whole state, so the
recorded samples, the cursor and the log timestamp, unchanged. -/
theorem log_results_bounded (cfg : Config) (s0 s : scheduler) (now1 now2 : Int)
    (affinityOk : Bool) (clock : List Int) (t : Int)
    (hinit : init_scheduler cfg now1 now2 affinityOk s0 = some s) :
    (0 ≤ (log_trace cfg clock s).m_counter ∧
      (log_trace cfg clock s).m_counter ≤ cfg.NUM_OF_SAMPLES) ∧
    (∀ (k : Int) (i : Nat),
      (((log_results cfg t (log_trace cfg clock s)).m_results k).m_cores i
          ≠ ((log_trace cfg clock s).m_results k).m_cores i ∨
        ((log_results cfg t (log_trace cfg clock s)).m_results k).m_weights i
          ≠ ((log_trace cfg clock s).m_results k).m_weights i) →
      0 ≤ k ∧ k < cfg.NUM_OF_SAMPLES ∧ i < cfg.NUM_OF_CORES) ∧
    ((log_trace cfg clock s).m_counter = cfg.NUM_OF_SAMPLES →
      log_results cfg t (log_trace cfg clock s) = log_trace cfg clock s) := by
  have h0 : 0 ≤ s.m_counter ∧ s.m_counter ≤ cfg.NUM_OF_SAMPLES := by
    unfold init_scheduler at hinit
    split_ifs at hinit
    simp only [Option.some.injEq] at hinit
    subst hinit
    simp
  have hc := log_trace_counter cfg clock s h0
  refine ⟨hc, ?_, ?_⟩
  · intro k i hd
    have hw := log_results_writes cfg t _ k i hd
    refine ⟨?_, hw.2.1, hw.2.2⟩
    rw [hw.1]
    exact hc.1
  · intro hfull
    unfold log_results
    rw [if_neg]
    rintro ⟨_, hlt⟩
    omega

/-- Witness for C10: `log_results_bounded` after `init_scheduler` and four
`log_results` calls, of which three record a sample: the cursor is 3, the
capacity. -/
theorem log_results_bounded_witness :
    (init_scheduler cfg4 0 0 true blank = some (booted cfg4) ∧
      (log_trace cfg4 [20, 40, 60, 80] (booted cfg4)).m_counter = 3) ∧
    ((0 ≤ (log_trace cfg4 [20, 40, 60, 80] (booted cfg4)).m_counter ∧
      (log_trace cfg4 [20, 40, 60, 80] (booted cfg4)).m_counter ≤ cfg4.NUM_OF_SAMPLES) ∧
    (∀ (k : Int) (i : Nat),
      (((log_results cfg4 100 (log_trace cfg4 [20, 40, 60, 80] (booted cfg4))).m_results k).m_cores i
          ≠ ((log_trace cfg4 [20, 40, 60, 80] (booted cfg4)).m_results k).m_cores i ∨
        ((log_results cfg4 100 (log_trace cfg4 [20, 40, 60, 80] (booted cfg4))).m_results k).m_weights i
          ≠ ((log_trace cfg4 [20, 40, 60, 80] (booted cfg4)).m_results k).m_weights i) →
      0 ≤ k ∧ k < cfg4.NUM_OF_SAMPLES ∧ i < cfg4.NUM_OF_CORES) ∧
    ((log_trace cfg4 [20, 40, 60, 80] (booted cfg4)).m_counter = cfg4.NUM_OF_SAMPLES →
      log_results cfg4 100 (log_trace cfg4 [20, 40, 60, 80] (booted cfg4))
        = log_trace cfg4 [20, 40, 60, 80] (booted cfg4))) :=
  ⟨⟨rfl, by decide⟩,
    log_results_bounded cfg4 blank (booted cfg4) 0 0 true [20, 40, 60, 80] 100 rfl⟩

/-- The data loop of `write_results_to_csv` writes `m_counter - 1` rows, and its
row number `m` (counted from 0) is made from `m_results[m + 1]`: `m_results[0]`
is never written. -/
theorem csv_data_rows (cfg : Config) (s : scheduler) :
    (csv_data cfg s).length = (s.m_counter - 1).toNat ∧
    ∀ m, m < (csv_data cfg s).length → (csv_data cfg s)[m]? = some (csv_row cfg s (m + 1)) := by
  unfold csv_data
  have h := forLoop_invariant (fun i rows => rows ++ [csv_row cfg s i])
    (fun k rows => rows.length + 1 = k ∧
      ∀ m, m < rows.length → rows[m]? = some (csv_row cfg s (m + 1)))
    (s.m_counter - 1).toNat 1 [] ⟨rfl, fun m hm => by simp at hm⟩
    (fun k rows _ _ hk => by
      refine ⟨by simp [hk.1], fun m hm => ?_⟩
      simp only [List.length_append, List.length_singleton] at hm
      rcases Nat.lt_succ_iff_lt_or_eq.mp hm with hlt | heq
      · rw [List.getElem?_append_left hlt]
        exact hk.2 m hlt
      · subst heq
        rw [List.getElem?_append_right (le_refl _)]
        simp [hk.1])
  refine ⟨by omega, h.2⟩

/-- C9 (the code at the failing input). After `init_scheduler` and one recorded
sample (`m_counter = 1`), `write_results_to_csv` writes the header row and no
data row. -/
theorem csv_omits_first_sample :
    (log_results cfg4 20 (booted cfg4)).m_counter = 1 ∧
    write_results_to_csv cfg4 true (log_results cfg4 20 (booted cfg4)) =
      some [csv_header cfg4] ∧
    ((write_results_to_csv cfg4 true (log_results cfg4 20 (booted cfg4))).map List.length) =
      some 1 :=
  ⟨by decide, rfl, rfl⟩

end CoreGuard
